import Mathlib

/-!
Verification of the meal-tracking LINE chat-bot backend (count-crab).

The development shallowly embeds the serving path of `src/main.py` together
with the data model of `src/models.py`:

* a JSON value type with models of `json.dumps` (default separators,
  `ensure_ascii=True`) and `json.loads`, together with a proved
  parse-of-print round trip;
* the classifier-response extraction of `classify_with_openai` (the 2xx
  path: substring between the first brace and the last brace, with the
  non-food fallback result);
* the flex-message builders (`create_flex_nutrition_message`,
  `create_non_food_flex_message`, the history carousel of
  `handle_text_message`);
* the meal-record store (`MealRecord`, insert, most-recent lookup,
  `listRecent`-style query, location update) and the four LINE event
  handlers, with external calls (OpenAI, the database commit) modelled as
  oracles that either return a value or raise.

Strings are modelled as `List Char`.  JSON numbers are modelled as
integers (the nutrition payloads of this codebase are integral); binary
floating point is outside the model, and latitude/longitude are modelled
as exact rationals.
-/

namespace CountCrab

/-- The whitespace characters accepted between JSON tokens. -/
def isJsonWs (c : Char) : Bool :=
  c == ' ' || c == '\t' || c == '\n' || c == '\r'

/-- Python `str.strip` whitespace (ASCII part). -/
def isPyWs (c : Char) : Bool :=
  c == ' ' || c == '\t' || c == '\n' || c == '\r' || c == '\x0b' || c == '\x0c'

/-- Model of Python `str.strip()`. -/
def pyStrip (s : List Char) : List Char :=
  ((s.dropWhile isPyWs).reverse.dropWhile isPyWs).reverse

/-- ASCII decimal digit test. -/
def isDigitChar (c : Char) : Bool :=
  48 ≤ c.toNat && c.toNat ≤ 57

/-- JSON values as produced by `json.loads` and consumed by `json.dumps`.
Numbers are modelled as integers; floats are outside the model. -/
inductive Json where
  | null
  | bool (b : Bool)
  | num (n : Int)
  | str (s : List Char)
  | arr (elems : List Json)
  | obj (members : List (List Char × Json))

mutual
/-- Size measure used as parser fuel accounting. -/
def jsize : Json → Nat
  | .null => 1
  | .bool _ => 1
  | .num _ => 1
  | .str _ => 1
  | .arr es => 1 + jsizeElems es
  | .obj ms => 1 + jsizeMembers ms
def jsizeElems : List Json → Nat
  | [] => 0
  | e :: es => 1 + jsize e + jsizeElems es
def jsizeMembers : List (List Char × Json) → Nat
  | [] => 0
  | (_, v) :: ms => 1 + jsize v + jsizeMembers ms
end

/-- Fuel-driven digit extraction (structural recursion so that it reduces
in the kernel). -/
def natDigitsGo (fuel n : Nat) : List Nat :=
  match fuel with
  | 0 => []
  | fuel + 1 => if n < 10 then [n] else n % 10 :: natDigitsGo fuel (n / 10)

/-- Decimal digits of a natural number, least significant first. -/
def natDigitsLE (n : Nat) : List Nat := natDigitsGo (n + 1) n

/-- The character of a decimal digit. -/
def digitChar (d : Nat) : Char := Char.ofNat (48 + d)

/-- Decimal rendering of a natural number (as Python `str`). -/
def natStr (n : Nat) : List Char := (natDigitsLE n).reverse.map digitChar

/-- Decimal rendering of an integer (as Python `str` / `json.dumps`). -/
def intStr (i : Int) : List Char :=
  if i < 0 then '-' :: natStr i.natAbs else natStr i.toNat

/-- Lowercase hexadecimal digit character. -/
def hexDigitChar (n : Nat) : Char :=
  if n < 10 then Char.ofNat (48 + n) else Char.ofNat (87 + n)

/-- Four lowercase hex digits, as in Python's `\uXXXX` escapes. -/
def hex4 (n : Nat) : List Char :=
  [hexDigitChar (n / 4096 % 16), hexDigitChar (n / 256 % 16),
   hexDigitChar (n / 16 % 16), hexDigitChar (n % 16)]

/-- Escape of a single character under `json.dumps` with
`ensure_ascii=True`: the two-character escapes, printable ASCII kept
as-is, everything else as `\uXXXX` (with a surrogate pair above the basic
multilingual plane). -/
def escapeChar (c : Char) : List Char :=
  if c = '"' then ['\\', '"']
  else if c = '\\' then ['\\', '\\']
  else if c = '\n' then ['\\', 'n']
  else if c = '\r' then ['\\', 'r']
  else if c = '\t' then ['\\', 't']
  else if c = '\x08' then ['\\', 'b']
  else if c = '\x0c' then ['\\', 'f']
  else if 32 ≤ c.toNat && c.toNat ≤ 126 then [c]
  else if c.toNat < 65536 then '\\' :: 'u' :: hex4 c.toNat
  else
    ('\\' :: 'u' :: hex4 (55296 + (c.toNat - 65536) / 1024)) ++
    ('\\' :: 'u' :: hex4 (56320 + (c.toNat - 65536) % 1024))

/-- Escape of a whole string body under `json.dumps`. -/
def escapeStr : List Char → List Char
  | [] => []
  | c :: s => escapeChar c ++ escapeStr s

mutual
/-- Model of `json.dumps` with its default separators (`", "` and `": "`)
and `ensure_ascii=True`, as used for the postback payload. -/
def dumpsVal : Json → List Char
  | .num i => intStr i
  | .str s => '"' :: (escapeStr s ++ ['"'])
  | .null => 'n' :: ['u', 'l', 'l']
  | .bool true => 't' :: ['r', 'u', 'e']
  | .bool false => 'f' :: ['a', 'l', 's', 'e']
  | .arr es => '[' :: (dumpsElems es ++ [']'])
  | .obj ms => '\x7b' :: (dumpsMembers ms ++ ['\x7d'])
def dumpsElems : List Json → List Char
  | [] => []
  | [e] => dumpsVal e
  | e :: es => dumpsVal e ++ (',' :: ' ' :: dumpsElems es)
def dumpsMembers : List (List Char × Json) → List Char
  | [] => []
  | [(k, v)] => ('"' :: (escapeStr k ++ ['"'])) ++ (':' :: ' ' :: dumpsVal v)
  | (k, v) :: ms =>
      (('"' :: (escapeStr k ++ ['"'])) ++ (':' :: ' ' :: dumpsVal v)) ++
      (',' :: ' ' :: dumpsMembers ms)
end

/-- Skip JSON whitespace. -/
def skipWs : List Char → List Char
  | [] => []
  | c :: s => if isJsonWs c then skipWs s else c :: s

/-- Value of one hex digit character. -/
def hexVal (c : Char) : Option Nat :=
  if 48 ≤ c.toNat && c.toNat ≤ 57 then some (c.toNat - 48)
  else if 97 ≤ c.toNat && c.toNat ≤ 102 then some (c.toNat - 87)
  else if 65 ≤ c.toNat && c.toNat ≤ 70 then some (c.toNat - 55)
  else none

/-- Value of a four-hex-digit escape. -/
def hex4Val (a b c d : Char) : Option Nat := do
  let x ← hexVal a
  let y ← hexVal b
  let z ← hexVal c
  let w ← hexVal d
  pure (((x * 16 + y) * 16 + z) * 16 + w)

/-- Prepend a character to the string being accumulated by the string
parser. -/
def consCh (c : Char) : Option (List Char × List Char) → Option (List Char × List Char)
  | some (t, r) => some (c :: t, r)
  | none => none

/-- Decode the second half of a surrogate pair escape; `hi` is the value of
the high surrogate already read. -/
def readLowSurrogate (hi : Nat) : List Char → Option (Char × List Char)
  | '\\' :: 'u' :: a :: b :: c :: d :: r =>
    (match hex4Val a b c d with
     | none => none
     | some m =>
       if 56320 ≤ m ∧ m ≤ 57343 then
         some (Char.ofNat (65536 + (hi - 55296) * 1024 + (m - 56320)), r)
       else none)
  | _ => none

/-- Decode one escape sequence (after the backslash), modelling
`json.loads`: two-character escapes and `\uXXXX` escapes with
surrogate-pair recombination.  A lone surrogate is rejected (a Lean `Char`
cannot represent it). -/
def readEsc : List Char → Option (Char × List Char)
  | [] => none
  | e :: r2 =>
    if e = '"' then some ('"', r2)
    else if e = '\\' then some ('\\', r2)
    else if e = '/' then some ('/', r2)
    else if e = 'n' then some ('\n', r2)
    else if e = 't' then some ('\t', r2)
    else if e = 'r' then some ('\r', r2)
    else if e = 'b' then some ('\x08', r2)
    else if e = 'f' then some ('\x0c', r2)
    else if e = 'u' then
      match r2 with
      | a :: b :: c2 :: d :: r3 =>
        (match hex4Val a b c2 d with
         | none => none
         | some n =>
           if 55296 ≤ n ∧ n ≤ 56319 then readLowSurrogate n r3
           else if 56320 ≤ n ∧ n ≤ 57343 then none
           else some (Char.ofNat n, r3))
      | _ => none
    else none

/-- Fuel-driven loop of the string-body parser: a literal character, an
escape sequence, or the closing quote; raw control characters rejected. -/
def strBodyGo : Nat → List Char → Option (List Char × List Char)
  | 0, _ => none
  | _ + 1, [] => none
  | fuel + 1, c :: r =>
    if c = '"' then some ([], r)
    else if c = '\\' then
      match readEsc r with
      | none => none
      | some (ch, r2) => consCh ch (strBodyGo fuel r2)
    else if c.toNat < 32 then none
    else consCh c (strBodyGo fuel r)

/-- Parser for a JSON string body (after the opening quote). -/
def parseStrBody (s : List Char) : Option (List Char × List Char) :=
  strBodyGo (s.length + 1) s

/-- Digit-run accumulator of the number parser. -/
def parseNatAux : Nat → List Char → Nat × List Char
  | acc, [] => (acc, [])
  | acc, c :: s =>
    if isDigitChar c then parseNatAux (acc * 10 + (c.toNat - 48)) s
    else (acc, c :: s)

/-- Parse a nonempty digit run. -/
def parseNat : List Char → Option (Nat × List Char)
  | [] => none
  | c :: s =>
    if isDigitChar c then some (parseNatAux (c.toNat - 48) s) else none

/-- Match an expected literal tail. -/
def stripPre : List Char → List Char → Option (List Char)
  | [], s => some s
  | _ :: _, [] => none
  | p :: ps, c :: s => if c = p then stripPre ps s else none

mutual
/-- Fuel-indexed model of the `json.loads` grammar.  Numbers are integers
only (the model has no floats; a fractional or exponent part makes the
surrounding document unparsable, where Python would produce a float).
Leading-zero integers are not rejected, which only widens the accepted
inputs and is irrelevant to printed JSON. -/
def parseVal : Nat → List Char → Option (Json × List Char)
  | 0, _ => none
  | fuel + 1, s =>
    match skipWs s with
    | [] => none
    | c :: r =>
      if c = 'n' then
        match stripPre ['u', 'l', 'l'] r with
        | some r2 => some (.null, r2)
        | none => none
      else if c = 't' then
        match stripPre ['r', 'u', 'e'] r with
        | some r2 => some (.bool true, r2)
        | none => none
      else if c = 'f' then
        match stripPre ['a', 'l', 's', 'e'] r with
        | some r2 => some (.bool false, r2)
        | none => none
      else if c = '"' then
        match parseStrBody r with
        | some (t, r2) => some (.str t, r2)
        | none => none
      else if c = '-' then
        match parseNat r with
        | some (m, r2) => some (.num (-(m : Int)), r2)
        | none => none
      else if c = '[' then
        let r1 := skipWs r
        if r1.head? = some ']' then some (.arr [], r1.tail)
        else
          match parseElems fuel r1 with
          | some (es, r2) => some (.arr es, r2)
          | none => none
      else if c = '\x7b' then
        let r1 := skipWs r
        if r1.head? = some '\x7d' then some (.obj [], r1.tail)
        else
          match parseMembers fuel r1 with
          | some (ms, r2) => some (.obj ms, r2)
          | none => none
      else if isDigitChar c then
        match parseNat (c :: r) with
        | some (m, r2) => some (.num (m : Int), r2)
        | none => none
      else none
def parseElems : Nat → List Char → Option (List Json × List Char)
  | 0, _ => none
  | fuel + 1, s =>
    match parseVal fuel s with
    | none => none
    | some (v, r) =>
      match skipWs r with
      | ',' :: r2 =>
        (match parseElems fuel r2 with
         | some (es, r3) => some (v :: es, r3)
         | none => none)
      | ']' :: r2 => some ([v], r2)
      | _ => none
def parseMembers : Nat → List Char → Option (List (List Char × Json) × List Char)
  | 0, _ => none
  | fuel + 1, s =>
    match skipWs s with
    | '"' :: r =>
      (match parseStrBody r with
       | none => none
       | some (k, r2) =>
         match skipWs r2 with
         | ':' :: r3 =>
           (match parseVal fuel r3 with
            | none => none
            | some (v, r4) =>
              match skipWs r4 with
              | ',' :: r5 =>
                (match parseMembers fuel r5 with
                 | some (ms, r6) => some ((k, v) :: ms, r6)
                 | none => none)
              | '\x7d' :: r5 => some ([(k, v)], r5)
              | _ => none)
         | _ => none)
    | _ => none
end

/-- Model of `json.loads`: parse one document and require only whitespace
to remain. -/
def loads (s : List Char) : Option Json :=
  match parseVal (s.length + 1) s with
  | some (v, r) => if skipWs r = [] then some v else none
  | none => none

/-! ### Round trip: `loads` of `dumps` -/

/-- Value of a little-endian digit list. -/
def valLE : List Nat → Nat
  | [] => 0
  | d :: ds => d + 10 * valLE ds

theorem natDigitsGo_ne_nil {fuel n : Nat} (h : n < fuel) : natDigitsGo fuel n ≠ [] := by
  cases fuel with
  | zero => omega
  | succ fuel =>
    unfold natDigitsGo
    split <;> simp

theorem natDigitsGo_lt {fuel : Nat} : ∀ {n : Nat}, n < fuel →
    ∀ d ∈ natDigitsGo fuel n, d < 10 := by
  induction fuel with
  | zero => intro n h; omega
  | succ fuel ih =>
    intro n h d hd
    unfold natDigitsGo at hd
    split at hd
    · simp at hd; omega
    · simp at hd
      rcases hd with hd | hd
      · omega
      · exact ih (by omega) d hd

theorem valLE_natDigitsGo {fuel : Nat} : ∀ {n : Nat}, n < fuel →
    valLE (natDigitsGo fuel n) = n := by
  induction fuel with
  | zero => intro n h; omega
  | succ fuel ih =>
    intro n h
    unfold natDigitsGo
    split
    · simp [valLE]
    · have := ih (n := n / 10) (by omega)
      simp [valLE, this]
      omega

theorem natDigitsLE_ne_nil (n : Nat) : natDigitsLE n ≠ [] :=
  natDigitsGo_ne_nil (by omega)

theorem natDigitsLE_lt (n : Nat) : ∀ d ∈ natDigitsLE n, d < 10 :=
  natDigitsGo_lt (by omega)

theorem valLE_natDigitsLE (n : Nat) : valLE (natDigitsLE n) = n :=
  valLE_natDigitsGo (by omega)

theorem foldl_digits_rev (ds : List Nat) (a : Nat) :
    ds.reverse.foldl (fun acc d => acc * 10 + d) a = a * 10 ^ ds.length + valLE ds := by
  induction ds generalizing a with
  | nil => simp [valLE]
  | cons d ds ih =>
    simp only [List.reverse_cons, List.foldl_append, List.foldl_cons, List.foldl_nil,
      valLE, List.length_cons, ih]
    ring

/-- Facts about decimal digit characters, established by evaluation. -/
theorem digitChar_facts : ∀ e, e < 10 →
    isJsonWs (digitChar e) = false ∧ digitChar e ≠ 'n' ∧ digitChar e ≠ 't' ∧
    digitChar e ≠ 'f' ∧ digitChar e ≠ '"' ∧ digitChar e ≠ '-' ∧
    digitChar e ≠ '[' ∧ digitChar e ≠ '\x7b' ∧ isDigitChar (digitChar e) = true ∧
    (digitChar e).toNat - 48 = e ∧ digitChar e ≠ ']' ∧ digitChar e ≠ '\x7d' := by
  decide

/-- The input does not begin with a digit (so a digit run stops there). -/
def nonDigitStart : List Char → Prop
  | [] => True
  | c :: _ => isDigitChar c = false

theorem parseNatAux_stop {rest : List Char} (acc : Nat) (h : nonDigitStart rest) :
    parseNatAux acc rest = (acc, rest) := by
  cases rest with
  | nil => rfl
  | cons c t =>
    simp only [nonDigitStart] at h
    simp [parseNatAux, h]

theorem parseNatAux_digits (ds : List Nat) (acc : Nat) (rest : List Char)
    (h : ∀ d ∈ ds, d < 10) :
    parseNatAux acc (ds.map digitChar ++ rest)
      = parseNatAux (ds.foldl (fun a d => a * 10 + d) acc) rest := by
  induction ds generalizing acc with
  | nil => simp
  | cons d ds ih =>
    have hd := digitChar_facts d (h d (by simp))
    simp only [List.map_cons, List.cons_append, parseNatAux, hd.2.2.2.2.2.2.2.2.1,
      if_true, hd.2.2.2.2.2.2.2.2.2.1, List.foldl_cons]
    exact ih _ (fun d hmem => h d (List.mem_cons_of_mem _ hmem))

theorem natStr_shape (n : Nat) : ∃ e es, (natDigitsLE n).reverse = e :: es ∧ e < 10 ∧
    (∀ d ∈ es, d < 10) ∧ natStr n = digitChar e :: es.map digitChar ∧
    es.foldl (fun a d => a * 10 + d) e = n := by
  rcases hrev : (natDigitsLE n).reverse with _ | ⟨e, es⟩
  · exact absurd (by simpa using congrArg List.reverse hrev) (natDigitsLE_ne_nil n)
  · have hmem : ∀ d ∈ e :: es, d < 10 := by
      intro d hd
      exact natDigitsLE_lt n d (by
        have : d ∈ (natDigitsLE n).reverse := by rw [hrev]; exact hd
        simpa using this)
    refine ⟨e, es, rfl, hmem e (by simp), fun d hd => hmem d (by simp [hd]), ?_, ?_⟩
    · simp [natStr, hrev]
    · have := foldl_digits_rev (natDigitsLE n) 0
      rw [hrev] at this
      simp only [List.foldl_cons, Nat.zero_mul, Nat.zero_add] at this
      rw [this, valLE_natDigitsLE]

theorem parseNat_natStr (n : Nat) (rest : List Char) (h : nonDigitStart rest) :
    parseNat (natStr n ++ rest) = some (n, rest) := by
  obtain ⟨e, es, _, he, hes, hstr, hval⟩ := natStr_shape n
  have hd := digitChar_facts e he
  rw [hstr]
  simp only [List.cons_append, parseNat, hd.2.2.2.2.2.2.2.2.1, if_true,
    hd.2.2.2.2.2.2.2.2.2.1]
  rw [parseNatAux_digits es e rest hes, hval, parseNatAux_stop n h]

theorem hexVal_hexDigitChar : ∀ d, d < 16 → hexVal (hexDigitChar d) = some d := by
  decide

theorem hex4Val_hex4 {n : Nat} (h : n < 65536) :
    hex4Val (hexDigitChar (n / 4096 % 16)) (hexDigitChar (n / 256 % 16))
      (hexDigitChar (n / 16 % 16)) (hexDigitChar (n % 16)) = some n := by
  rw [hex4Val, hexVal_hexDigitChar _ (by omega), hexVal_hexDigitChar _ (by omega),
    hexVal_hexDigitChar _ (by omega), hexVal_hexDigitChar _ (by omega)]
  simp only [Option.bind_eq_bind, Option.some_bind, Option.some.injEq, pure]
  omega

theorem char_valid_range (c : Char) :
    c.toNat < 55296 ∨ (57343 < c.toNat ∧ c.toNat < 1114112) := by
  rcases c.valid with h | h
  · exact Or.inl h
  · exact Or.inr h

theorem readEsc_u (c : Char) (h : c.toNat < 65536) (r : List Char) :
    readEsc ('u' :: (hex4 c.toNat ++ r)) = some (c, r) := by
  have hv := char_valid_range c
  simp [hex4, readEsc, hex4Val_hex4 h]
  rw [if_neg (by omega), if_neg (by omega)]

theorem readEsc_u_hi (hi : Nat) (h1 : 55296 <= hi) (h2 : hi <= 56319) (rest : List Char) :
    readEsc ('u' :: (hex4 hi ++ rest)) = readLowSurrogate hi rest := by
  simp [hex4, readEsc, hex4Val_hex4 (show hi < 65536 by omega)]
  exact fun h3 => absurd (h3 h1) (by omega)

theorem readLowSurrogate_hex (hi lo : Nat) (h1 : 56320 <= lo) (h2 : lo <= 57343) (r : List Char) :
    readLowSurrogate hi ('\\' :: 'u' :: (hex4 lo ++ r))
      = some (Char.ofNat (65536 + (hi - 55296) * 1024 + (lo - 56320)), r) := by
  simp [readLowSurrogate, hex4, hex4Val_hex4 (show lo < 65536 by omega)]
  omega

theorem readEsc_surrogate (c : Char) (h : 65536 <= c.toNat) (r : List Char) :
    readEsc ('u' :: (hex4 (55296 + (c.toNat - 65536) / 1024) ++
      ('\\' :: 'u' :: (hex4 (56320 + (c.toNat - 65536) % 1024) ++ r)))) = some (c, r) := by
  have hv := char_valid_range c
  rw [readEsc_u_hi _ (by omega) (by omega),
    readLowSurrogate_hex _ _ (by omega) (by omega)]
  have harg : 65536 + (55296 + (c.toNat - 65536) / 1024 - 55296) * 1024 +
      (56320 + (c.toNat - 65536) % 1024 - 56320) = c.toNat := by omega
  rw [harg, Char.ofNat_toNat]


theorem strBodyGo_backslash (fuel : Nat) (r : List Char) :
    strBodyGo (fuel + 1) ('\\' :: r)
      = match readEsc r with
        | none => none
        | some (ch, r2) => consCh ch (strBodyGo fuel r2) := by
  simp only [strBodyGo, if_neg (by decide : ¬('\\' : Char) = '"'),
    eq_self_iff_true, if_true]

theorem strBodyGo_escapeChar (c : Char) (fuel : Nat) (t : List Char) :
    strBodyGo (fuel + 1) (escapeChar c ++ t) = consCh c (strBodyGo fuel t) := by
  rw [escapeChar]
  split_ifs with h1 h2 h3 h4 h5 h6 h7 h8 h9
  · subst h1; rfl
  · subst h2; rfl
  · subst h3; rfl
  · subst h4; rfl
  · subst h5; rfl
  · subst h6; rfl
  · subst h7; rfl
  · have h32 : ¬ c.toNat < 32 := by simp at h8; omega
    simp [strBodyGo, h1, h2, h32]
  · simp only [List.cons_append]
    rw [strBodyGo_backslash, readEsc_u c h9 t]
  · simp only [List.cons_append, List.append_assoc, List.nil_append]
    rw [strBodyGo_backslash, readEsc_surrogate c (by omega) t]

theorem strBodyGo_escapeStr : ∀ (s : List Char) (fuel : Nat) (rest : List Char),
    s.length + 1 ≤ fuel →
    strBodyGo fuel (escapeStr s ++ '"' :: rest) = some (s, rest) := by
  intro s
  induction s with
  | nil =>
    intro fuel rest h
    match fuel, h with
    | f + 1, _ => rfl
  | cons c s ih =>
    intro fuel rest h
    match fuel, h with
    | f + 1, h =>
      simp only [escapeStr, List.append_assoc, strBodyGo_escapeChar c f]
      rw [ih f rest (by simp at h; omega)]
      rfl

theorem escapeChar_length_pos (c : Char) : 1 ≤ (escapeChar c).length := by
  rw [escapeChar]
  split_ifs <;> simp [hex4]

theorem escapeStr_length_ge : ∀ s : List Char, s.length ≤ (escapeStr s).length := by
  intro s
  induction s with
  | nil => simp [escapeStr]
  | cons c s ih =>
    have := escapeChar_length_pos c
    simp only [escapeStr, List.length_append, List.length_cons]
    omega

theorem parseStrBody_escape (s rest : List Char) :
    parseStrBody (escapeStr s ++ '"' :: rest) = some (s, rest) := by
  rw [parseStrBody]
  apply strBodyGo_escapeStr
  have := escapeStr_length_ge s
  simp only [List.length_append, List.length_cons]
  omega

/-- Rest strings that can legally follow a printed JSON value. -/
def okRest : List Char → Prop
  | [] => True
  | c :: _ => c = ',' ∨ c = ']' ∨ c = '\x7d'

theorem okRest_nonDigit {rest : List Char} (h : okRest rest) : nonDigitStart rest := by
  cases rest with
  | nil => trivial
  | cons c t =>
    show isDigitChar c = false
    rcases h with h | h | h <;> subst h <;> decide

theorem skipWs_cons {c : Char} (h : isJsonWs c = false) (t : List Char) :
    skipWs (c :: t) = c :: t := by
  simp [skipWs, h]

theorem skipWs_space (t : List Char) : skipWs (' ' :: t) = skipWs t := by
  simp [skipWs, isJsonWs]

theorem jsize_pos (v : Json) : 1 ≤ jsize v := by
  cases v <;> simp [jsize]

theorem jsizeElems_pos (e : Json) (es : List Json) : 1 ≤ jsizeElems (e :: es) := by
  simp [jsizeElems]
  omega

theorem jsizeMembers_pos (k : List Char) (v : Json) (ms : List (List Char × Json)) :
    1 ≤ jsizeMembers ((k, v) :: ms) := by
  simp [jsizeMembers]
  omega

theorem dumpsVal_head (v : Json) : ∃ c t, dumpsVal v = c :: t ∧ isJsonWs c = false ∧
    c ≠ ']' ∧ c ≠ '\x7d' := by
  cases v with
  | num i =>
    rw [show dumpsVal (.num i) = intStr i from rfl, intStr]
    split_ifs with h
    · refine ⟨'-', _, rfl, ?_, ?_, ?_⟩ <;> decide
    · obtain ⟨e, es, _, he, _, hstr, _⟩ := natStr_shape i.toNat
      have hf := digitChar_facts e he
      exact ⟨digitChar e, _, hstr, hf.1, hf.2.2.2.2.2.2.2.2.2.2.1, hf.2.2.2.2.2.2.2.2.2.2.2⟩
  | bool b =>
    cases b with
    | true => refine ⟨'t', _, rfl, ?_, ?_, ?_⟩ <;> decide
    | false => refine ⟨'f', _, rfl, ?_, ?_, ?_⟩ <;> decide
  | null => refine ⟨'n', _, rfl, ?_, ?_, ?_⟩ <;> decide
  | str s => refine ⟨'"', _, rfl, ?_, ?_, ?_⟩ <;> decide
  | arr es => refine ⟨'[', _, rfl, ?_, ?_, ?_⟩ <;> decide
  | obj ms => refine ⟨'\x7b', _, rfl, ?_, ?_, ?_⟩ <;> decide

theorem dumpsElems_cons (e : Json) (es : List Json) :
    ∃ c t, dumpsElems (e :: es) = c :: t ∧ isJsonWs c = false ∧
      c ≠ ']' ∧ c ≠ '\x7d' := by
  obtain ⟨c, t, hd, h1, h2, h3⟩ := dumpsVal_head e
  cases es with
  | nil => exact ⟨c, t, by simp [dumpsElems, hd], h1, h2, h3⟩
  | cons e2 es =>
    exact ⟨c, t ++ (',' :: ' ' :: dumpsElems (e2 :: es)),
      by simp [dumpsElems, hd], h1, h2, h3⟩

theorem dumpsMembers_cons (k : List Char) (v : Json) (ms : List (List Char × Json)) :
    dumpsMembers ((k, v) :: ms)
      = '"' :: ((escapeStr k ++ ['"']) ++ (':' :: ' ' :: dumpsVal v) ++
          (match ms with
           | [] => []
           | _ :: _ => ',' :: ' ' :: dumpsMembers ms)) := by
  cases ms with
  | nil => simp [dumpsMembers]
  | cons m ms => simp [dumpsMembers]

theorem parseVal_dispatch_null {s r : List Char} (fuel : Nat) (hs : skipWs s = 'n' :: r) :
    parseVal (fuel + 1) s
      = match stripPre ['u', 'l', 'l'] r with
        | some r2 => some (.null, r2)
        | none => none := by
  simp only [parseVal, hs]
  simp

theorem parseVal_dispatch_true {s r : List Char} (fuel : Nat) (hs : skipWs s = 't' :: r) :
    parseVal (fuel + 1) s
      = match stripPre ['r', 'u', 'e'] r with
        | some r2 => some (.bool true, r2)
        | none => none := by
  simp only [parseVal, hs]
  simp

theorem parseVal_dispatch_false {s r : List Char} (fuel : Nat) (hs : skipWs s = 'f' :: r) :
    parseVal (fuel + 1) s
      = match stripPre ['a', 'l', 's', 'e'] r with
        | some r2 => some (.bool false, r2)
        | none => none := by
  simp only [parseVal, hs]
  simp

theorem parseVal_dispatch_quote {s r : List Char} (fuel : Nat) (hs : skipWs s = '"' :: r) :
    parseVal (fuel + 1) s
      = match parseStrBody r with
        | some (t, r2) => some (.str t, r2)
        | none => none := by
  simp only [parseVal, hs]
  simp

theorem parseVal_dispatch_neg {s r : List Char} (fuel : Nat) (hs : skipWs s = '-' :: r) :
    parseVal (fuel + 1) s
      = match parseNat r with
        | some (m, r2) => some (.num (-(m : Int)), r2)
        | none => none := by
  simp only [parseVal, hs]
  simp

theorem parseVal_dispatch_arr {s r : List Char} (fuel : Nat) (hs : skipWs s = '[' :: r) :
    parseVal (fuel + 1) s
      = (if (skipWs r).head? = some ']' then some (.arr [], (skipWs r).tail)
         else
           match parseElems fuel (skipWs r) with
           | some (es, r2) => some (.arr es, r2)
           | none => none) := by
  simp only [parseVal, hs]
  simp

theorem parseVal_dispatch_obj {s r : List Char} (fuel : Nat) (hs : skipWs s = '\x7b' :: r) :
    parseVal (fuel + 1) s
      = (if (skipWs r).head? = some '\x7d' then some (.obj [], (skipWs r).tail)
         else
           match parseMembers fuel (skipWs r) with
           | some (ms, r2) => some (.obj ms, r2)
           | none => none) := by
  simp only [parseVal, hs]
  simp

theorem parseVal_dispatch_digit {s r : List Char} {c : Char} (fuel : Nat)
    (hc : isDigitChar c = true) (hs : skipWs s = c :: r) :
    parseVal (fuel + 1) s
      = match parseNat (c :: r) with
        | some (m, r2) => some (.num (m : Int), r2)
        | none => none := by
  have h1 : ¬c = 'n' := fun h => absurd hc (by subst h; decide)
  have h2 : ¬c = 't' := fun h => absurd hc (by subst h; decide)
  have h3 : ¬c = 'f' := fun h => absurd hc (by subst h; decide)
  have h4 : ¬c = '"' := fun h => absurd hc (by subst h; decide)
  have h5 : ¬c = '-' := fun h => absurd hc (by subst h; decide)
  have h6 : ¬c = '[' := fun h => absurd hc (by subst h; decide)
  have h7 : ¬c = '\x7b' := fun h => absurd hc (by subst h; decide)
  simp only [parseVal, hs, if_neg h1, if_neg h2, if_neg h3, if_neg h4, if_neg h5,
    if_neg h6, if_neg h7, hc, if_true]

theorem parse_dumps_triple : ∀ fuel : Nat,
    (∀ v s rest, jsize v ≤ fuel → okRest rest → skipWs s = dumpsVal v ++ rest →
      parseVal fuel s = some (v, rest)) ∧
    (∀ es s rest, es ≠ [] → jsizeElems es ≤ fuel → okRest rest →
      skipWs s = dumpsElems es ++ ']' :: rest → parseElems fuel s = some (es, rest)) ∧
    (∀ ms s rest, ms ≠ [] → jsizeMembers ms ≤ fuel → okRest rest →
      skipWs s = dumpsMembers ms ++ '\x7d' :: rest →
      parseMembers fuel s = some (ms, rest)) := by
  intro fuel
  induction fuel with
  | zero =>
    refine ⟨?_, ?_, ?_⟩
    · intro v s rest hle _ _
      exact absurd hle (by have := jsize_pos v; omega)
    · intro es s rest hne hle _ _
      cases es with
      | nil => exact absurd rfl hne
      | cons e es => exact absurd hle (by have := jsizeElems_pos e es; omega)
    · intro ms s rest hne hle _ _
      cases ms with
      | nil => exact absurd rfl hne
      | cons m ms =>
        obtain ⟨k, v⟩ := m
        exact absurd hle (by have := jsizeMembers_pos k v ms; omega)
  | succ fuel ih =>
    obtain ⟨ihv, ihe, ihm⟩ := ih
    refine ⟨?_, ?_, ?_⟩
    · intro v s rest hle hok hs
      cases v with
      | null =>
        rw [parseVal_dispatch_null fuel (by simpa [dumpsVal] using hs)]
        rfl
      | bool b =>
        cases b with
        | true =>
          rw [parseVal_dispatch_true fuel (by simpa [dumpsVal] using hs)]
          rfl
        | false =>
          rw [parseVal_dispatch_false fuel (by simpa [dumpsVal] using hs)]
          rfl
      | num i =>
        by_cases hi : i < 0
        · have hs' : skipWs s = '-' :: (natStr i.natAbs ++ rest) := by
            simpa [dumpsVal, intStr, hi] using hs
          rw [parseVal_dispatch_neg fuel hs',
            parseNat_natStr i.natAbs rest (okRest_nonDigit hok)]
          have hval : -(i.natAbs : Int) = i := by omega
          show some (Json.num (-(i.natAbs : Int)), rest) = some (Json.num i, rest)
          rw [hval]
        · obtain ⟨e, es, _, he, _, hstr, _⟩ := natStr_shape i.toNat
          have hf := digitChar_facts e he
          have hs' : skipWs s = digitChar e :: (es.map digitChar ++ rest) := by
            simpa [dumpsVal, intStr, hi, hstr] using hs
          rw [parseVal_dispatch_digit fuel hf.2.2.2.2.2.2.2.2.1 hs']
          have hrw : digitChar e :: (es.map digitChar ++ rest) = natStr i.toNat ++ rest := by
            rw [hstr, List.cons_append]
          rw [hrw, parseNat_natStr i.toNat rest (okRest_nonDigit hok)]
          have hval : ((i.toNat : Nat) : Int) = i := by omega
          show some (Json.num ((i.toNat : Nat) : Int), rest) = some (Json.num i, rest)
          rw [hval]
      | str s0 =>
        have hs' : skipWs s = '"' :: (escapeStr s0 ++ ('"' :: rest)) := by
          simpa [dumpsVal, List.append_assoc] using hs
        rw [parseVal_dispatch_quote fuel hs', parseStrBody_escape s0 rest]
      | arr es =>
        cases es with
        | nil =>
          have hs' : skipWs s = '[' :: (']' :: rest) := by
            simpa [dumpsVal, dumpsElems] using hs
          rw [parseVal_dispatch_arr fuel hs',
            skipWs_cons (show isJsonWs ']' = false by decide)]
          simp
        | cons x xs =>
          obtain ⟨c, t, hd, hws, hne1, _⟩ := dumpsElems_cons x xs
          have hs' : skipWs s = '[' :: (dumpsElems (x :: xs) ++ ']' :: rest) := by
            simpa [dumpsVal, List.append_assoc] using hs
          rw [parseVal_dispatch_arr fuel hs']
          have hr1 : skipWs (dumpsElems (x :: xs) ++ ']' :: rest)
              = dumpsElems (x :: xs) ++ ']' :: rest := by
            rw [hd, List.cons_append]
            exact skipWs_cons hws _
          rw [hr1, if_neg (by rw [hd, List.cons_append]; simp [hne1]),
            ihe (x :: xs) _ rest (by simp) (by simp [jsize] at hle; omega) hok hr1]
      | obj ms =>
        cases ms with
        | nil =>
          have hs' : skipWs s = '\x7b' :: ('\x7d' :: rest) := by
            simpa [dumpsVal, dumpsMembers] using hs
          rw [parseVal_dispatch_obj fuel hs',
            skipWs_cons (show isJsonWs '\x7d' = false by decide)]
          simp
        | cons m ms2 =>
          obtain ⟨k, v⟩ := m
          have hs' : skipWs s = '\x7b' :: (dumpsMembers ((k, v) :: ms2) ++ '\x7d' :: rest) := by
            simpa [dumpsVal, List.append_assoc] using hs
          rw [parseVal_dispatch_obj fuel hs']
          have hr1 : skipWs (dumpsMembers ((k, v) :: ms2) ++ '\x7d' :: rest)
              = dumpsMembers ((k, v) :: ms2) ++ '\x7d' :: rest := by
            rw [dumpsMembers_cons, List.cons_append]
            exact skipWs_cons (by decide) _
          rw [hr1, if_neg (by rw [dumpsMembers_cons, List.cons_append]; simp),
            ihm ((k, v) :: ms2) _ rest (by simp) (by simp [jsize] at hle; omega) hok hr1]
    · intro es s rest hne hsz hok hs
      cases es with
      | nil => exact absurd rfl hne
      | cons e es2 =>
        rw [parseElems]
        cases es2 with
        | nil =>
          have h1 : skipWs s = dumpsVal e ++ (']' :: rest) := by
            simpa [dumpsElems] using hs
          have hsz1 : jsize e ≤ fuel := by
            simp [jsizeElems] at hsz
            omega
          rw [ihv e s (']' :: rest) hsz1 (by simp [okRest]) h1]
          simp [skipWs_cons (show isJsonWs ']' = false by decide)]
        | cons e2 es3 =>
          have h1 : skipWs s
              = dumpsVal e ++ (',' :: ' ' :: (dumpsElems (e2 :: es3) ++ ']' :: rest)) := by
            simpa [dumpsElems, List.append_assoc] using hs
          have hsz1 : jsize e ≤ fuel := by
            simp [jsizeElems] at hsz
            have := jsizeElems_pos e2 es3
            omega
          obtain ⟨c, t, hd, hws, _, _⟩ := dumpsElems_cons e2 es3
          have h2 : skipWs (' ' :: (dumpsElems (e2 :: es3) ++ ']' :: rest))
              = dumpsElems (e2 :: es3) ++ ']' :: rest := by
            rw [skipWs_space, hd, List.cons_append]
            exact skipWs_cons hws _
          have hsz2 : jsizeElems (e2 :: es3) ≤ fuel := by
            simp [jsizeElems] at hsz ⊢
            have := jsize_pos e
            omega
          have hv := ihv e s _ hsz1 (by simp [okRest]) h1
          have he2 := ihe (e2 :: es3) (' ' :: (dumpsElems (e2 :: es3) ++ ']' :: rest)) rest
            (by simp) hsz2 hok h2
          simp [hv, skipWs_cons (show isJsonWs ',' = false by decide), he2]
    · intro ms s rest hne hsz hok hs
      cases ms with
      | nil => exact absurd rfl hne
      | cons m ms2 =>
        obtain ⟨k, v⟩ := m
        rw [parseMembers]
        cases ms2 with
        | nil =>
          have h1 : skipWs s
              = '"' :: (escapeStr k ++ ('"' :: (':' :: (' ' :: (dumpsVal v
                  ++ ('\x7d' :: rest)))))) := by
            simpa [dumpsMembers, List.append_assoc] using hs
          rw [h1]
          obtain ⟨c, t, hd, hws, _, _⟩ := dumpsVal_head v
          have h3 : skipWs (' ' :: (dumpsVal v ++ ('\x7d' :: rest)))
              = dumpsVal v ++ ('\x7d' :: rest) := by
            rw [skipWs_space, hd, List.cons_append]
            exact skipWs_cons hws _
          have hsz1 : jsize v ≤ fuel := by
            simp [jsizeMembers] at hsz
            omega
          have hv := ihv v (' ' :: (dumpsVal v ++ ('\x7d' :: rest))) ('\x7d' :: rest)
            hsz1 (by simp [okRest]) h3
          simp [parseStrBody_escape, skipWs_cons (show isJsonWs ':' = false by decide), hv,
            skipWs_cons (show isJsonWs '\x7d' = false by decide)]
        | cons m2 ms3 =>
          obtain ⟨k2, v2⟩ := m2
          have h1 : skipWs s
              = '"' :: (escapeStr k ++ ('"' :: (':' :: (' ' :: (dumpsVal v
                  ++ (',' :: (' ' :: (dumpsMembers ((k2, v2) :: ms3)
                      ++ ('\x7d' :: rest))))))))) := by
            simpa [dumpsMembers, List.append_assoc] using hs
          rw [h1]
          obtain ⟨c, t, hd, hws, _, _⟩ := dumpsVal_head v
          have h3 : skipWs (' ' :: (dumpsVal v
              ++ (',' :: (' ' :: (dumpsMembers ((k2, v2) :: ms3) ++ ('\x7d' :: rest))))))
              = dumpsVal v
                ++ (',' :: (' ' :: (dumpsMembers ((k2, v2) :: ms3) ++ ('\x7d' :: rest)))) := by
            rw [skipWs_space, hd, List.cons_append]
            exact skipWs_cons hws _
          have hsz1 : jsize v ≤ fuel := by
            simp [jsizeMembers] at hsz
            have := jsizeMembers_pos k2 v2 ms3
            omega
          have h4 : skipWs (' ' :: (dumpsMembers ((k2, v2) :: ms3) ++ ('\x7d' :: rest)))
              = dumpsMembers ((k2, v2) :: ms3) ++ '\x7d' :: rest := by
            rw [skipWs_space, dumpsMembers_cons, List.cons_append]
            exact skipWs_cons (by decide) _
          have hsz2 : jsizeMembers ((k2, v2) :: ms3) ≤ fuel := by
            simp [jsizeMembers] at hsz ⊢
            have := jsize_pos v
            omega
          have hv := ihv v (' ' :: (dumpsVal v
              ++ (',' :: (' ' :: (dumpsMembers ((k2, v2) :: ms3) ++ ('\x7d' :: rest)))))) _
            hsz1 (by simp [okRest]) h3
          have hm2 := ihm ((k2, v2) :: ms3)
            (' ' :: (dumpsMembers ((k2, v2) :: ms3) ++ ('\x7d' :: rest))) rest
            (by simp) hsz2 hok h4
          simp [parseStrBody_escape, skipWs_cons (show isJsonWs ':' = false by decide), hv,
            skipWs_cons (show isJsonWs ',' = false by decide), hm2]

theorem one_le_intStr_length (i : Int) : 1 ≤ (intStr i).length := by
  rw [intStr]
  split_ifs
  · simp
  · obtain ⟨e, es, _, _, _, hstr, _⟩ := natStr_shape i.toNat
    simp [hstr]

theorem jsize_le_len_triple : ∀ n : Nat,
    (∀ v, jsize v ≤ n → jsize v ≤ (dumpsVal v).length) ∧
    (∀ es, jsizeElems es ≤ n → jsizeElems es ≤ (dumpsElems es).length + 1) ∧
    (∀ ms, jsizeMembers ms ≤ n → jsizeMembers ms ≤ (dumpsMembers ms).length + 1) := by
  intro n
  induction n with
  | zero =>
    refine ⟨?_, ?_, ?_⟩
    · intro v h
      exact absurd h (by have := jsize_pos v; omega)
    · intro es h
      cases es with
      | nil => simp [jsizeElems]
      | cons e es => exact absurd h (by have := jsizeElems_pos e es; omega)
    · intro ms h
      cases ms with
      | nil => simp [jsizeMembers]
      | cons m ms =>
        obtain ⟨k, v⟩ := m
        exact absurd h (by have := jsizeMembers_pos k v ms; omega)
  | succ n ih =>
    obtain ⟨ihv, ihe, ihm⟩ := ih
    refine ⟨?_, ?_, ?_⟩
    · intro v h
      cases v with
      | null => simp [jsize, dumpsVal]
      | bool b => cases b <;> simp [jsize, dumpsVal]
      | num i =>
        have := one_le_intStr_length i
        simp [jsize, dumpsVal]
        omega
      | str s => simp [jsize, dumpsVal]
      | arr es =>
        have h2 := ihe es (by simp [jsize] at h; omega)
        simp [jsize, dumpsVal] at h2 ⊢
        omega
      | obj ms =>
        have h2 := ihm ms (by simp [jsize] at h; omega)
        simp [jsize, dumpsVal] at h2 ⊢
        omega
    · intro es h
      cases es with
      | nil => simp [jsizeElems]
      | cons e es2 =>
        cases es2 with
        | nil =>
          have h2 := ihv e (by simp [jsizeElems] at h; omega)
          simp [jsizeElems, dumpsElems]
          omega
        | cons e2 es3 =>
          have h2 := ihv e (by
            simp [jsizeElems] at h
            have := jsizeElems_pos e2 es3
            omega)
          have h3 := ihe (e2 :: es3) (by
            simp [jsizeElems] at h ⊢
            have := jsize_pos e
            omega)
          simp [jsizeElems, dumpsElems] at h3 ⊢
          omega
    · intro ms h
      cases ms with
      | nil => simp [jsizeMembers]
      | cons m ms2 =>
        obtain ⟨k, v⟩ := m
        cases ms2 with
        | nil =>
          have h2 := ihv v (by simp [jsizeMembers] at h; omega)
          simp [jsizeMembers, dumpsMembers]
          omega
        | cons m2 ms3 =>
          obtain ⟨k2, v2⟩ := m2
          have h2 := ihv v (by
            simp [jsizeMembers] at h
            have := jsizeMembers_pos k2 v2 ms3
            omega)
          have h3 := ihm ((k2, v2) :: ms3) (by
            simp [jsizeMembers] at h ⊢
            have := jsize_pos v
            omega)
          simp [jsizeMembers, dumpsMembers] at h3 ⊢
          omega

/-- Round trip: parsing a printed JSON document yields the printed value.
This is the `json.loads` of `json.dumps` identity behind the
PendingMealToken round trip. -/
theorem loads_dumps (v : Json) : loads (dumpsVal v) = some v := by
  have h1 : jsize v ≤ (dumpsVal v).length := (jsize_le_len_triple (jsize v)).1 v le_rfl
  obtain ⟨c, t, hd, hws, _, _⟩ := dumpsVal_head v
  have hskip : skipWs (dumpsVal v) = dumpsVal v ++ [] := by
    rw [List.append_nil, hd]
    exact skipWs_cons hws t
  have hp := (parse_dumps_triple ((dumpsVal v).length + 1)).1 v (dumpsVal v) []
    (by omega) trivial hskip
  rw [loads, hp]
  simp [skipWs]

/-! ### Decoded-dictionary lookup and Python value rendering -/

/-- Lookup in a decoded JSON object: a later duplicate key shadows an
earlier one, as in the dict produced by `json.loads` or a dict literal. -/
def jget (ms : List (List Char × Json)) (k : List Char) : Option Json :=
  match ms with
  | [] => none
  | (k0, v) :: rest =>
    match jget rest k with
    | some w => some w
    | none => if k0 = k then some v else none

/-- Python `dict.get(k, d)` on a decoded JSON object. -/
def jgetD (ms : List (List Char × Json)) (k : List Char) (d : Json) : Json :=
  (jget ms k).getD d

/-- Escape of one character inside Python `repr` of a string (simplified:
only quotes, backslashes and control characters are escaped; Python also
escapes other non-printable code points). -/
def reprEscChar (c : Char) : List Char :=
  if c = '\\' then ['\\', '\\']
  else if c = '\'' then ['\\', '\'']
  else if c = '\n' then ['\\', 'n']
  else if c = '\r' then ['\\', 'r']
  else if c = '\t' then ['\\', 't']
  else if c.toNat < 32 ∨ c.toNat = 127 then
    '\\' :: 'x' :: [hexDigitChar (c.toNat / 16), hexDigitChar (c.toNat % 16)]
  else [c]

/-- `repr` escape of a whole string body. -/
def reprEscStr : List Char → List Char
  | [] => []
  | c :: s => reprEscChar c ++ reprEscStr s

mutual
/-- Python `repr()` of a value decoded from JSON. -/
def pyRepr : Json → List Char
  | .null => "None".data
  | .bool true => "True".data
  | .bool false => "False".data
  | .num i => intStr i
  | .str s => '\'' :: (reprEscStr s ++ ['\''])
  | .arr es => '[' :: (pyReprElems es ++ [']'])
  | .obj ms => '\x7b' :: (pyReprMembers ms ++ ['\x7d'])
def pyReprElems : List Json → List Char
  | [] => []
  | [e] => pyRepr e
  | e :: es => pyRepr e ++ (',' :: ' ' :: pyReprElems es)
def pyReprMembers : List (List Char × Json) → List Char
  | [] => []
  | [(k, v)] => ('\'' :: (reprEscStr k ++ ['\''])) ++ (':' :: ' ' :: pyRepr v)
  | (k, v) :: ms =>
      (('\'' :: (reprEscStr k ++ ['\''])) ++ (':' :: ' ' :: pyRepr v)) ++
      (',' :: ' ' :: pyReprMembers ms)
end

/-- Python `str()` of a value decoded from JSON, as interpolated by the
f-strings of the reply builders. -/
def pyStr (v : Json) : List Char :=
  match v with
  | .str s => s
  | v => pyRepr v

/-- Python truthiness of a value decoded from JSON
(`None`, `False`, `0`, `""`, `[]` and `\x7b\x7d` are falsy). -/
def pyTruthy : Json → Bool
  | .null => false
  | .bool b => b
  | .num i => i != 0
  | .str s => !s.isEmpty
  | .arr es => !es.isEmpty
  | .obj ms => !ms.isEmpty

/-! ### The classifier client (`classify_with_openai`) -/

/-- Python `str.find` for a single character: first index or `-1`. -/
def pyFind (c : Char) (s : List Char) : Int :=
  match s.findIdx? (· == c) with
  | some i => (i : Int)
  | none => -1

/-- Python `str.rfind` for a single character: last index or `-1`. -/
def pyRFind (c : Char) (s : List Char) : Int :=
  match s.reverse.findIdx? (· == c) with
  | some i => (s.length : Int) - 1 - (i : Int)
  | none => -1

/-- Python slice `s[a:b]` (for the nonnegative bounds used here). -/
def pySlice (s : List Char) (a b : Int) : List Char :=
  (s.take b.toNat).drop a.toNat

/-- The fixed non-food fallback classification result returned by
`classify_with_openai` when no JSON can be extracted. -/
def fallbackJson : Json :=
  .obj [("is_food".data, .bool false), ("category".data, .str "other".data),
        ("subcategory".data, .str "unknown".data),
        ("message".data, .str "ขออภัยค่ะ ไม่สามารถวิเคราะห์ภาพได้".data),
        ("emoji".data, .str "❓".data)]

/-- `content[start_idx:end_idx]` of the source: the substring from the
first brace to the last brace of the completion text. -/
def braceSlice (content : List Char) : List Char :=
  pySlice content (pyFind '\x7b' content) (pyRFind '\x7d' content + 1)

/-- The 2xx branch of `classify_with_openai`: parse the text between the
first and last brace of the completion, with the non-food fallback when no
braces are found or `json.loads` fails. -/
def extract_json_content (content : List Char) : Json :=
  let start := pyFind '\x7b' content
  let stop := pyRFind '\x7d' content + 1
  if start ≠ -1 ∧ stop > start then
    match loads (braceSlice content) with
    | some j => j
    | none => fallbackJson
  else fallbackJson

/-- A raised Python exception, carrying `str(e)`. -/
inductive PyErr where
  | err (msg : List Char)
deriving DecidableEq

/-- `classify_with_openai`, given the outcome of the upstream call: a
transport failure or non-2xx status raises (`HTTPException`), and a 2xx
completion text is interpreted by `extract_json_content`. -/
def classify_with_openai (resp : Except PyErr (List Char)) : Except PyErr Json :=
  resp.map extract_json_content

/-! ### The meal-record store (`models.MealRecord`) -/

/-- A row of the `meal_records` table.  The nutrition columns hold the
JSON values passed to the `MealRecord` constructor; latitude and longitude
are exact rationals standing for the float columns; `created_at` is an
abstract monotone timestamp (`datetime.utcnow` at insert time). -/
structure MealRecord where
  id : Nat
  user_id : List Char
  food_name : Json
  protein : Json
  carbohydrate : Json
  fat : Json
  sodium : Json
  calories : Json
  materials : List Char
  details : List Char
  latitude : Option ℚ
  longitude : Option ℚ
  location_name : Option (List Char)
  created_at : Nat

/-- The database: the stored rows in insertion order plus the id sequence
and the clock used at insert time. -/
structure DB where
  recs : List MealRecord
  nextId : Nat
  clock : Nat

/-- `INSERT`: the new row receives the next id and the current time. -/
def DB.insert (db : DB) (mk : Nat → Nat → MealRecord) : DB × MealRecord :=
  let r := mk db.nextId db.clock
  ({ recs := db.recs ++ [r], nextId := db.nextId + 1, clock := db.clock + 1 }, r)

/-- Insertion step of the descending sort by `created_at`. -/
def insertByCreatedDesc (r : MealRecord) : List MealRecord → List MealRecord
  | [] => [r]
  | x :: xs =>
    if r.created_at > x.created_at then r :: x :: xs
    else x :: insertByCreatedDesc r xs

/-- Sort descending by `created_at`: the model of
`ORDER BY created_at DESC`. -/
def orderByCreatedDesc : List MealRecord → List MealRecord
  | [] => []
  | r :: rs => insertByCreatedDesc r (orderByCreatedDesc rs)

/-- The rows of one user, in insertion order
(`query(MealRecord).filter(user_id == ...)`). -/
def userRecs (db : DB) (user : List Char) : List MealRecord :=
  db.recs.filter (fun r => r.user_id == user)

/-- `filter(user_id).order_by(created_at.desc()).limit(n).all()`. -/
def listRecent (db : DB) (user : List Char) (n : Nat) : List MealRecord :=
  (orderByCreatedDesc (userRecs db user)).take n

/-- `filter(user_id).order_by(created_at.desc()).first()`. -/
def mostRecentRec (db : DB) (user : List Char) : Option MealRecord :=
  (orderByCreatedDesc (userRecs db user)).head?

/-- ORM update of one fetched row, keyed by its primary key. -/
def DB.updateRecord (db : DB) (rid : Nat) (f : MealRecord → MealRecord) : DB :=
  { db with recs := db.recs.map (fun r => if r.id == rid then f r else r) }

/-- Strict monotonicity of ids and timestamps along insertion order. -/
def chronological : List MealRecord → Bool
  | [] => true
  | [_] => true
  | a :: b :: t => (a.created_at < b.created_at && a.id < b.id) && chronological (b :: t)

/-- Well-formedness of the store: rows in insertion order carry strictly
increasing ids and timestamps, all below the id sequence and the clock. -/
def DB.wf (db : DB) : Bool :=
  chronological db.recs &&
    db.recs.all (fun r => r.created_at < db.clock && r.id < db.nextId)

/-! ### Fixed user-facing texts (byte-for-byte from the source) -/

def saveSuccessText : List Char := "บันทึกการกินอาหารเรียบร้อยแล้ว! 🎉".data
def noMealDataText : List Char := "ไม่พบข้อมูลอาหารที่จะบันทึก กรุณาส่งรูปอาหารใหม่".data
def notEatText : List Char := "ไม่บันทึกการกินอาหาร".data
def quickReplyPromptText : List Char := "กรุณาเลือกรูปแบบการเพิ่มรูปอาหารของคุณ 📷".data
def noHistoryText : List Char := "ยังไม่มีประวัติการกินอาหาร".data
def historyAltText : List Char := "ประวัติการกินอาหาร".data
def nutritionAltText : List Char := "ข้อมูลโภชนาการ".data
def nonFoodAltText : List Char := "ผลการวิเคราะห์ภาพ".data
def locationPromptText : List Char := "คุณต้องการบันทึกตำแหน่งที่อยู่ด้วยไหม? 📍".data
def locationRequestText : List Char := "กรุณาส่งตำแหน่งที่อยู่ของคุณ 📍".data
def locationSavedText : List Char := "บันทึกตำแหน่งที่อยู่เรียบร้อยแล้ว! 📍".data
def locationNoMealText : List Char := "ไม่พบข้อมูลการกินอาหารที่จะบันทึกตำแหน่ง".data
def saveFailText : List Char := "ขออภัย ไม่สามารถบันทึกข้อมูลได้".data
def locationReqFailText : List Char := "ขออภัย ไม่สามารถขอตำแหน่งที่อยู่ได้".data
def locationSaveFailText : List Char := "ขออภัย ไม่สามารถบันทึกตำแหน่งที่อยู่ได้".data
def imageFailPrefixText : List Char := "ขออภัย ไม่สามารถวิเคราะห์ภาพได้: ".data
def noLocationText : List Char := "📍 ไม่มีข้อมูลตำแหน่ง".data

/-- The usage guide sent for the help command. -/
def helpText : List Char :=
  ("📌 **วิธีการใช้งาน Meal Mate เพื่อวิเคราะห์สารอาหารจากรูปภาพ**\n\n" ++
   "✨ **Meal Mate ของเราสามารถช่วยคุณวิเคราะห์คุณค่าทางโภชนาการของอาหารจากรูปภาพได้ง่าย ๆ!** ✨\n\n" ++
   "🔹 **1️⃣ เริ่มต้นใช้งาน**\n" ++
   "   - พิมพ์ **'บันทึกอาหาร'** หรือ กดที่ rich menu เพื่อเริ่มต้น\n" ++
   "   - จากนั้น Meal Mate จะแสดง **ตัวเลือก Quick Reply**\n" ++
   "     ✅ **📸 ถ่ายรูปอาหาร** → เปิดกล้องเพื่อถ่ายรูปอาหาร\n" ++
   "     ✅ **🖼 อัพโหลดรูปอาหาร** → เลือกรูปจากแกลเลอรีของคุณ\n\n" ++
   "🔹 **2️⃣ ถ่ายรูปอาหารหรืออัพโหลดภาพ**\n" ++
   "   - เลือกรูปอาหารที่ต้องการวิเคราะห์\n" ++
   "   - กดส่งรูปให้ Meal Mate\n\n" ++
   "🔹 **3️⃣ รับข้อมูลโภชนาการ**\n" ++
   "   - Meal Mate จะวิเคราะห์และตอบกลับพร้อมข้อมูลโภชนาการ\n" ++
   "   - เลือก **กิน** หรือ **ไม่กิน** เพื่อบันทึกการกินอาหาร\n\n" ++
   "🔹 **4️⃣ ดูประวัติการกิน**\n" ++
   "   - พิมพ์ **'ประวัติการกิน'** เพื่อดูประวัติการกินอาหารล่าสุด\n\n" ++
   "🚀 **ลองใช้งานเลย!**\n" ++
   "1️⃣ พิมพ์ **'บันทึกอาหาร'**\n" ++
   "2️⃣ เลือก **ถ่ายรูป** หรือ **อัพโหลดรูป**\n" ++
   "3️⃣ รับ **ข้อมูลโภชนาการของอาหาร** ทันที! 😊").data

/-! ### Formatting helpers -/

/-- Round a rational to the nearest integer, ties to even (the rounding
used when Python formats with a fixed number of decimals; the binary
float is approximated by exact rational arithmetic). -/
def roundHalfEven (q : ℚ) : ℤ :=
  let f := ⌊q⌋
  if q - f < 1/2 then f
  else if q - f > 1/2 then f + 1
  else if f % 2 = 0 then f else f + 1

/-- Model of the Python format spec `.4f`. -/
def fmt4 (q : ℚ) : List Char :=
  let m := (roundHalfEven (|q| * 10000)).toNat
  let frac := natStr (m % 10000)
  (if q < 0 then ['-'] else []) ++ natStr (m / 10000) ++
    ('.' :: (List.replicate (4 - frac.length) '0' ++ frac))

/-- Truthiness of an optional string column (`if record.location_name:`). -/
def pyTruthyStrOpt : Option (List Char) → Bool
  | some s => !s.isEmpty
  | none => false

/-- Truthiness of an optional numeric column (`if record.latitude:`);
`0.0` is falsy. -/
def pyTruthyRatOpt : Option ℚ → Bool
  | some q => q != 0
  | none => false

/-- Shorthand for a JSON string literal of a flex document. -/
def jstr (s : String) : Json := .str s.data

/-! ### Reply formatters -/

/-- One nutrition row of the food flex message (a baseline box with the
label and the rendered `"value unit"` text, as in the source). -/
def nutritionRow (label : String) (value : List Char) : Json :=
  .obj [("type".data, jstr "box"), ("layout".data, jstr "baseline"),
        ("spacing".data, jstr "sm"),
        ("contents".data, .arr [
          .obj [("type".data, jstr "text"), ("text".data, jstr label),
                ("color".data, jstr "#aaaaaa"), ("size".data, jstr "sm"),
                ("flex".data, .num 2)],
          .obj [("type".data, jstr "text"), ("text".data, .str value),
                ("wrap".data, .bool true), ("color".data, jstr "#666666"),
                ("size".data, jstr "sm"), ("flex".data, .num 3)]])]

/-- A separator block. -/
def sepBlock (margin : String) : Json :=
  .obj [("type".data, jstr "separator"), ("margin".data, jstr margin)]

/-- The `minimal_food_info` dict: the PendingMealToken embedded in the
confirm-eat postback payload. -/
def buildToken (food : List (List Char × Json)) : Json :=
  .obj [(['n'], jgetD food "name".data (.str [])),
        (['p'], jgetD food "protein".data (.num 0)),
        (['c'], jgetD food "carbohydrate".data (.num 0)),
        (['f'], jgetD food "fat".data (.num 0)),
        (['s'], jgetD food "sodium".data (.num 0)),
        (['k'], jgetD food "calories".data (.num 0))]

/-- `create_flex_nutrition_message`: the carousel with one bubble holding
the name header, the five nutrition rows, the ingredients block, the
advisory block, the disclaimer, and the confirm-eat button whose postback
data carries the serialized PendingMealToken. -/
def create_flex_nutrition_message (food : List (List Char × Json)) : Json :=
  .obj [("type".data, jstr "carousel"),
        ("contents".data, .arr [
    .obj [("type".data, jstr "bubble"),
      ("body".data, .obj [
        ("type".data, jstr "box"), ("layout".data, jstr "vertical"),
        ("contents".data, .arr [
          .obj [("type".data, jstr "text"),
                ("text".data, jgetD food "name".data (jstr "ไม่สามารถระบุชื่ออาหารได้")),
                ("weight".data, jstr "bold"), ("size".data, jstr "xl"),
                ("margin".data, jstr "md")],
          .obj [("type".data, jstr "box"), ("layout".data, jstr "vertical"),
                ("margin".data, jstr "lg"), ("spacing".data, jstr "sm"),
                ("contents".data, .arr [
            nutritionRow "แคลอรี่:"
              (pyStr (jgetD food "calories".data (jstr "N/A")) ++ " กิโลแคลอรี่".data),
            nutritionRow "โปรตีน:"
              (pyStr (jgetD food "protein".data (jstr "N/A")) ++ " กรัม".data),
            nutritionRow "ไขมัน:"
              (pyStr (jgetD food "fat".data (jstr "N/A")) ++ " กรัม".data),
            nutritionRow "คาร์โบไฮเดรต:"
              (pyStr (jgetD food "carbohydrate".data (jstr "N/A")) ++ " กรัม".data),
            nutritionRow "โซเดียม:"
              (pyStr (jgetD food "sodium".data (jstr "N/A")) ++ " มิลลิกรัม".data)])],
          sepBlock "lg",
          .obj [("type".data, jstr "text"), ("text".data, jstr "วัตถุดิบ"),
                ("weight".data, jstr "bold"), ("size".data, jstr "md"),
                ("margin".data, jstr "lg"), ("color".data, jstr "#1DB446")],
          .obj [("type".data, jstr "text"),
                ("text".data,
                  .str (pyStr (jgetD food "materials".data
                    (jstr "ข้อมูลวัตถุกำลังอยู่ในระหว่างการพัฒนา")))),
                ("wrap".data, .bool true), ("size".data, jstr "sm"),
                ("color".data, jstr "#666666"), ("margin".data, jstr "sm")],
          sepBlock "lg",
          .obj [("type".data, jstr "text"), ("text".data, jstr "คำแนะนำ"),
                ("weight".data, jstr "bold"), ("size".data, jstr "md"),
                ("margin".data, jstr "lg"), ("color".data, jstr "#1DB446")],
          .obj [("type".data, jstr "text"),
                ("text".data,
                  .str (pyStr (jgetD food "details".data
                    (jstr "ข้อมูลคำแนะนำกำลังอยู่ในระหว่างการพัฒนา")))),
                ("wrap".data, .bool true), ("size".data, jstr "sm"),
                ("color".data, jstr "#666666"), ("margin".data, jstr "sm")],
          sepBlock "lg",
          .obj [("type".data, jstr "text"),
                ("text".data,
                  jstr "Note: ข้อมูลนี้เป็นการประมาณค่าจาก AI และอาจมีความคลาดเคลื่อนได้"),
                ("wrap".data, .bool true), ("size".data, jstr "xs"),
                ("color".data, jstr "#FF6B6E"), ("margin".data, jstr "lg")]])]),
      ("footer".data, .obj [
        ("type".data, jstr "box"), ("layout".data, jstr "horizontal"),
        ("spacing".data, jstr "sm"),
        ("contents".data, .arr [
          .obj [("type".data, jstr "button"), ("style".data, jstr "primary"),
                ("color".data, jstr "#1DB446"),
                ("action".data, .obj [
                  ("type".data, jstr "postback"),
                  ("label".data, jstr "บันทึกการกิน"),
                  ("data".data, .str ("eat_".data ++ dumpsVal (buildToken food)))])]])])]])]

/-- `category_colors.get(category, "#FFD93D")` of the non-food reply. -/
def categoryColor (cat : Json) : List Char :=
  match cat with
  | .str s =>
    if s = "face".data then "#FF6B6B".data
    else if s = "animal".data then "#4ECDC4".data
    else if s = "landscape".data then "#45B7D1".data
    else if s = "object".data then "#96CEB4".data
    else if s = "other".data then "#FFD93D".data
    else "#FFD93D".data
  | _ => "#FFD93D".data

/-- `category_icons.get(category, "✨")` of the non-food reply. -/
def categoryIcon (cat : Json) : List Char :=
  match cat with
  | .str s =>
    if s = "face".data then "👤".data
    else if s = "animal".data then "🐾".data
    else if s = "landscape".data then "🌅".data
    else if s = "object".data then "🔍".data
    else if s = "other".data then "✨".data
    else "✨".data
  | _ => "✨".data

/-- `create_non_food_flex_message`: the category-colored bubble with the
emoji header, the subcategory line, and the descriptive message. -/
def create_non_food_flex_message (kvs : List (List Char × Json)) : Json :=
  let category := jgetD kvs "category".data (jstr "other")
  let color := categoryColor category
  let emoji := jgetD kvs "emoji".data (.str (categoryIcon category))
  .obj [("type".data, jstr "bubble"), ("size".data, jstr "mega"),
    ("header".data, .obj [
      ("type".data, jstr "box"), ("layout".data, jstr "vertical"),
      ("contents".data, .arr [
        .obj [("type".data, jstr "text"),
              ("text".data, .str (pyStr emoji ++ " วิเคราะห์ภาพ".data)),
              ("weight".data, jstr "bold"), ("size".data, jstr "xl"),
              ("color".data, jstr "#ffffff")],
        .obj [("type".data, jstr "text"),
              ("text".data,
                .str ("ประเภท: ".data ++
                  pyStr (jgetD kvs "subcategory".data (jstr "ไม่ระบุ")))),
              ("color".data, jstr "#ffffff"), ("size".data, jstr "sm"),
              ("margin".data, jstr "sm")]]),
      ("backgroundColor".data, .str color), ("paddingAll".data, jstr "20px")]),
    ("body".data, .obj [
      ("type".data, jstr "box"), ("layout".data, jstr "vertical"),
      ("contents".data, .arr [
        .obj [("type".data, jstr "text"),
              ("text".data, jgetD kvs "message".data
                (jstr "ขออภัยค่ะ ไม่สามารถวิเคราะห์ภาพได้")),
              ("size".data, jstr "lg"), ("wrap".data, .bool true),
              ("color".data, jstr "#666666")],
        sepBlock "xxl",
        .obj [("type".data, jstr "box"), ("layout".data, jstr "vertical"),
              ("margin".data, jstr "xxl"), ("spacing".data, jstr "sm"),
              ("contents".data, .arr [
                .obj [("type".data, jstr "text"),
                      ("text".data, jstr "ลองส่งรูปอาหารมาให้วิเคราะห์กันเถอะ! 🍽️"),
                      ("size".data, jstr "sm"), ("color".data, jstr "#666666"),
                      ("wrap".data, .bool true)]])]]),
      ("paddingAll".data, jstr "20px")])]

/-- The location line of one history card: the stored name when truthy,
else the coordinates to four decimals when both are truthy, else the
fixed placeholder (the default-then-override chain of the source). -/
def historyLocationText (r : MealRecord) : List Char :=
  if pyTruthyStrOpt r.location_name then
    "📍 ".data ++ r.location_name.getD []
  else if pyTruthyRatOpt r.latitude && pyTruthyRatOpt r.longitude then
    "📍 ".data ++ fmt4 (r.latitude.getD 0) ++ ", ".data ++ fmt4 (r.longitude.getD 0)
  else noLocationText

/-- Abstract rendering of the record timestamp: the `strftime` date and
time formatting of wall-clock values is outside the model. -/
def dateTimeText (t : Nat) : List Char := natStr t

/-- One history card (`bubble`) of the history carousel. -/
def historyBubble (r : MealRecord) : Json :=
  .obj [("type".data, jstr "bubble"), ("size".data, jstr "mega"),
    ("header".data, .obj [
      ("type".data, jstr "box"), ("layout".data, jstr "vertical"),
      ("contents".data, .arr [
        .obj [("type".data, jstr "text"), ("text".data, r.food_name),
              ("weight".data, jstr "bold"), ("size".data, jstr "xl"),
              ("color".data, jstr "#ffffff")],
        .obj [("type".data, jstr "text"),
              ("text".data, .str (dateTimeText r.created_at)),
              ("color".data, jstr "#ffffff"), ("size".data, jstr "sm")]]),
      ("backgroundColor".data, jstr "#27AE60"), ("paddingAll".data, jstr "20px")]),
    ("body".data, .obj [
      ("type".data, jstr "box"), ("layout".data, jstr "vertical"),
      ("contents".data, .arr [
        .obj [("type".data, jstr "box"), ("layout".data, jstr "vertical"),
              ("spacing".data, jstr "sm"),
              ("contents".data, .arr [
                .obj [("type".data, jstr "box"), ("layout".data, jstr "baseline"),
                      ("spacing".data, jstr "sm"),
                      ("contents".data, .arr [
                        .obj [("type".data, jstr "text"), ("text".data, jstr "🔥"),
                              ("flex".data, .num 1), ("size".data, jstr "xl")],
                        .obj [("type".data, jstr "text"),
                              ("text".data,
                                .str (pyStr r.calories ++ " แคลอรี่".data)),
                              ("flex".data, .num 4), ("size".data, jstr "xl"),
                              ("color".data, jstr "#666666"),
                              ("weight".data, jstr "bold")]])]])],
        sepBlock "xxl",
        .obj [("type".data, jstr "box"), ("layout".data, jstr "vertical"),
              ("margin".data, jstr "xxl"), ("spacing".data, jstr "sm"),
              ("contents".data, .arr [
                .obj [("type".data, jstr "text"),
                      ("text".data, .str (historyLocationText r)),
                      ("size".data, jstr "sm"), ("color".data, jstr "#666666"),
                      ("wrap".data, .bool true)]])]]),
      ("paddingAll".data, jstr "20px")]),
    ("styles".data, .obj [
      ("footer".data, .obj [("separator".data, .bool true)])])]

/-! ### Event handlers

External effects are modelled explicitly: outbound messages are collected
as a list of `Action`s (quick-reply button decorations are presentation
metadata and are elided), and each fallible external call (the OpenAI
request, the image download, the database session) is an oracle that
either yields a value or raises.  `start_loading_animation` catches its
own errors and returns a `Bool`, so it is a no-op here. -/

/-- An outbound messaging action. -/
inductive Action where
  | reply (text : List Char)
  | replyFlex (altText : List Char) (contents : Json)
  | push (userId : List Char) (text : List Char)

/-- Oracle outcomes for `handle_text_message`: the advice call
(`respond_as_health_expert`, which may raise on transport failure) and
the database session. -/
structure TextEnv where
  expertResp : Except PyErr (List Char)
  dbFail : Option PyErr

/-- `handle_text_message`.  The source installs no try/except around this
handler: a raise from any branch propagates to the webhook dispatcher,
hence the `Except` result with no catch. -/
def handle_text_message (env : TextEnv) (db : DB) (user text : List Char) :
    Except PyErr (DB × List Action) :=
  let msg := pyStrip text
  if "eat_".data.isPrefixOf msg then
    match env.dbFail with
    | some e => .error e
    | none =>
      match mostRecentRec db user with
      | some _ => .ok (db, [.reply saveSuccessText])
      | none => .ok (db, [.reply noMealDataText])
  else if msg = "ไม่กิน".data then .ok (db, [.reply notEatText])
  else if msg = "บันทึกอาหาร".data then .ok (db, [.reply quickReplyPromptText])
  else if msg = "ประวัติการกิน".data then
    match env.dbFail with
    | some e => .error e
    | none =>
      let records := listRecent db user 5
      if records.isEmpty then .ok (db, [.reply noHistoryText])
      else
        .ok (db, [.replyFlex historyAltText
          (.obj [("type".data, jstr "carousel"),
                 ("contents".data, .arr (records.map historyBubble))])])
  else if msg = "วิธีการใช้งาน".data then .ok (db, [.reply helpText])
  else
    match env.expertResp with
    | .error e => .error e
    | .ok resp => .ok (db, [.reply resp])

/-- Oracle outcomes for `handle_image_message`: the image download and the
OpenAI completion (error standing for transport failure or the
`HTTPException` raised on a non-2xx status). -/
structure ImgEnv where
  fetchContent : Except PyErr Unit
  apiResponse : Except PyErr (List Char)

/-- The body of `handle_image_message` inside its try block. -/
def imageTurnBody (env : ImgEnv) (db : DB) : Except PyErr (DB × List Action) := do
  let _ ← env.fetchContent
  let response_data ← classify_with_openai env.apiResponse
  match response_data with
  | .obj kvs =>
    if pyTruthy (jgetD kvs "is_food".data (.bool false)) then
      .ok (db, [.replyFlex nutritionAltText (create_flex_nutrition_message kvs)])
    else
      .ok (db, [.replyFlex nonFoodAltText (create_non_food_flex_message kvs)])
  | _ => .error (.err "AttributeError".data)

/-- `handle_image_message`: the whole body runs inside try/except, and any
exception becomes a plain-text apology carrying `str(e)`. -/
def handle_image_message (env : ImgEnv) (db : DB) : DB × List Action :=
  match imageTurnBody env db with
  | .ok r => r
  | .error (.err m) => (db, [.reply (imageFailPrefixText ++ m)])

/-- The `MealRecord` built from a decoded PendingMealToken in the
confirm-eat branch (`food_info.get("n", "")` and friends); `materials` and
`details` are not included in the postback data. -/
def tokenRecord (kvs : List (List Char × Json)) (user : List Char)
    (rid t : Nat) : MealRecord :=
  { id := rid, user_id := user,
    food_name := jgetD kvs "n".data (.str []),
    protein := jgetD kvs "p".data (.num 0),
    carbohydrate := jgetD kvs "c".data (.num 0),
    fat := jgetD kvs "f".data (.num 0),
    sodium := jgetD kvs "s".data (.num 0),
    calories := jgetD kvs "k".data (.num 0),
    materials := [], details := [],
    latitude := none, longitude := none, location_name := none,
    created_at := t }

/-- The try-block body of the confirm-eat branch of `handle_postback`:
decode the PendingMealToken from the payload after the `eat_` prefix
(`json.loads` raising on malformed data, `.get` raising on a non-dict),
insert the meal record, reply, and push the location prompt. -/
def postbackEatBody (dbFail : Option PyErr) (db : DB) (user data : List Char) :
    Except PyErr (DB × List Action) :=
  match loads (data.drop 4) with
  | none => .error (.err "JSONDecodeError".data)
  | some (.obj kvs) =>
    match dbFail with
    | some e => .error e
    | none =>
      let ins := db.insert (tokenRecord kvs user)
      .ok (ins.1, [.reply saveSuccessText, .push user locationPromptText])
  | some _ => .error (.err "AttributeError".data)

/-- `data.split("_")[1]`: the segment between the first underscore and the
next one. -/
def pySplitSeg1 (data : List Char) : List Char :=
  ((data.dropWhile (· != '_')).drop 1).takeWhile (· != '_')

/-- All-digit run to a number. -/
def digitsToNat (ds : List Char) : Option Nat :=
  if ds.isEmpty then none
  else if ds.all isDigitChar then some (parseNatAux 0 ds).1
  else none

/-- Python `int(str)`: optional surrounding whitespace, optional sign,
then a nonempty digit run; anything else raises `ValueError`. -/
def parsePyInt (s : List Char) : Option Int :=
  match pyStrip s with
  | '+' :: ds => (digitsToNat ds).map (fun n => (n : Int))
  | '-' :: ds => (digitsToNat ds).map (fun n => -(n : Int))
  | ds => (digitsToNat ds).map (fun n => (n : Int))

/-- The try-block body of the `location_` branch of `handle_postback`:
parse the meal id (unused afterwards) and reply with the location
request. -/
def locationReqBody (data : List Char) : Except PyErr (List Action) :=
  match parsePyInt (pySplitSeg1 data) with
  | none => .error (.err "ValueError".data)
  | some _ => .ok [.reply locationRequestText]

/-- `handle_postback`: the confirm-eat branch and the location-request
branch each run inside try/except and degrade to a fixed apology; any
other payload falls through with no action. -/
def handle_postback (dbFail : Option PyErr) (db : DB) (user data : List Char) :
    DB × List Action :=
  if "eat_".data.isPrefixOf data then
    match postbackEatBody dbFail db user data with
    | .ok r => r
    | .error _ => (db, [.reply saveFailText])
  else if "location_".data.isPrefixOf data then
    match locationReqBody data with
    | .ok acts => (db, acts)
    | .error _ => (db, [.reply locationReqFailText])
  else (db, [])

/-- The field assignment performed on the fetched row by
`handle_location_message`. -/
def locUpdate (lat lon : ℚ) (addr : Option (List Char)) (m : MealRecord) : MealRecord :=
  { m with latitude := some lat, longitude := some lon, location_name := addr }

/-- The try-block body of `handle_location_message`: update the user's
most recent record with the received coordinates and address. -/
def locationTurnBody (dbFail : Option PyErr) (db : DB) (user : List Char)
    (lat lon : ℚ) (addr : Option (List Char)) : Except PyErr (DB × List Action) :=
  match dbFail with
  | some e => .error e
  | none =>
    match mostRecentRec db user with
    | some r =>
      .ok (db.updateRecord r.id (locUpdate lat lon addr), [.reply locationSavedText])
    | none => .ok (db, [.reply locationNoMealText])

/-- `handle_location_message`: the body runs inside try/except and any
exception becomes the fixed apology. -/
def handle_location_message (dbFail : Option PyErr) (db : DB) (user : List Char)
    (lat lon : ℚ) (addr : Option (List Char)) : DB × List Action :=
  match locationTurnBody dbFail db user lat lon addr with
  | .ok r => r
  | .error _ => (db, [.reply locationSaveFailText])

/-! ### Store lemmas -/

theorem chronological_pairwise : ∀ {rs : List MealRecord}, chronological rs = true →
    rs.Pairwise (fun a b => a.created_at < b.created_at) := by
  intro rs
  induction rs with
  | nil => intro _; exact List.Pairwise.nil
  | cons a t ih =>
    intro h
    cases t with
    | nil => simp
    | cons b t2 =>
      simp only [chronological, Bool.and_eq_true, decide_eq_true_eq] at h
      obtain ⟨⟨hab, _⟩, hrest⟩ := h
      have hp := ih hrest
      have hb := (List.pairwise_cons.mp hp).1
      refine List.pairwise_cons.mpr ⟨?_, hp⟩
      intro x hx
      rcases List.mem_cons.mp hx with rfl | hx
      · exact hab
      · exact lt_trans hab (hb x hx)

theorem insertByCreatedDesc_length (r : MealRecord) :
    ∀ xs, (insertByCreatedDesc r xs).length = xs.length + 1 := by
  intro xs
  induction xs with
  | nil => rfl
  | cons x xs ih =>
    simp only [insertByCreatedDesc]
    split_ifs <;> simp [ih]

theorem orderByCreatedDesc_length (rs : List MealRecord) :
    (orderByCreatedDesc rs).length = rs.length := by
  induction rs with
  | nil => rfl
  | cons r rs ih => simp [orderByCreatedDesc, insertByCreatedDesc_length, ih]

theorem insertByCreatedDesc_of_lt {r : MealRecord} :
    ∀ {xs : List MealRecord}, (∀ x ∈ xs, r.created_at < x.created_at) →
    insertByCreatedDesc r xs = xs ++ [r] := by
  intro xs
  induction xs with
  | nil => intro _; rfl
  | cons x xs ih =>
    intro h
    have hx := h x (by simp)
    simp only [insertByCreatedDesc]
    rw [if_neg (by omega)]
    rw [ih (fun y hy => h y (by simp [hy]))]
    simp

theorem orderByCreatedDesc_of_increasing : ∀ {rs : List MealRecord},
    rs.Pairwise (fun a b => a.created_at < b.created_at) →
    orderByCreatedDesc rs = rs.reverse := by
  intro rs
  induction rs with
  | nil => intro _; rfl
  | cons r rs ih =>
    intro h
    obtain ⟨hr, hrs⟩ := List.pairwise_cons.mp h
    rw [show orderByCreatedDesc (r :: rs) = insertByCreatedDesc r (orderByCreatedDesc rs)
        from rfl,
      ih hrs, insertByCreatedDesc_of_lt (fun x hx => hr x (List.mem_reverse.mp hx))]
    simp

theorem userRecs_pairwise {db : DB} (h : db.wf = true) (user : List Char) :
    (userRecs db user).Pairwise (fun a b => a.created_at < b.created_at) := by
  rw [DB.wf, Bool.and_eq_true] at h
  exact (chronological_pairwise h.1).filter _

theorem mostRecentRec_none_iff (db : DB) (user : List Char) :
    mostRecentRec db user = none ↔ userRecs db user = [] := by
  rw [mostRecentRec, List.head?_eq_none_iff, ← List.length_eq_zero,
    orderByCreatedDesc_length, List.length_eq_zero]

theorem mostRecentRec_eq_getLast {db : DB} (h : db.wf = true) (user : List Char) :
    mostRecentRec db user = (userRecs db user).getLast? := by
  rw [mostRecentRec, orderByCreatedDesc_of_increasing (userRecs_pairwise h user),
    List.head?_reverse]

theorem listRecent_desc {db : DB} (h : db.wf = true) (user : List Char) (n : Nat) :
    (listRecent db user n).length ≤ n ∧
    (listRecent db user n).Pairwise (fun a b => b.created_at < a.created_at) := by
  constructor
  · rw [listRecent]
    simp [List.length_take]
  · rw [listRecent, orderByCreatedDesc_of_increasing (userRecs_pairwise h user)]
    exact List.Pairwise.sublist (List.take_sublist n _)
      (List.pairwise_reverse.mpr (userRecs_pairwise h user))

/-! ### Navigation helpers over flex documents (used to state claims) -/

/-- Field of a JSON object. -/
def jfield (v : Json) (k : List Char) : Option Json :=
  match v with
  | .obj ms => jget ms k
  | _ => none

/-- Elements of a JSON array. -/
def jitems : Json → Option (List Json)
  | .arr es => some es
  | _ => none

/-- The rendered `"value unit"` texts of the five nutrition rows of a food
flex message, in document order. -/
def nutritionRowTexts (flex : Json) : Option (List Json) := do
  let cs ← jfield flex "contents".data
  let bubbles ← jitems cs
  let bubble ← bubbles[0]?
  let body ← jfield bubble "body".data
  let bcs ← jitems (← jfield body "contents".data)
  let nut ← bcs[1]?
  let rows ← jitems (← jfield nut "contents".data)
  rows.mapM (fun row => do
    let rcs ← jitems (← jfield row "contents".data)
    let second ← rcs[1]?
    jfield second "text".data)

/-- The postback payload carried by the confirm-eat button of a food flex
message. -/
def confirmEatData (flex : Json) : Option Json := do
  let cs ← jfield flex "contents".data
  let bubbles ← jitems cs
  let bubble ← bubbles[0]?
  let footer ← jfield bubble "footer".data
  let fcs ← jitems (← jfield footer "contents".data)
  let btn ← fcs[0]?
  let act ← jfield btn "action".data
  jfield act "data".data

/-! ### The claims -/

/-- C1: for every classifier completion text (under a 2xx upstream
response) that contains no opening brace, or whose first-brace-to-
last-brace substring fails to parse as JSON, `classify_with_openai`
returns the fixed fallback result with `is_food` false, category
`"other"`, subcategory `"unknown"`, and does not raise. -/
theorem c1_classifier_fallback (content : List Char)
    (h : '\x7b' ∉ content ∨ loads (braceSlice content) = none) :
    classify_with_openai (.ok content) = .ok fallbackJson := by
  have hx : extract_json_content content = fallbackJson := by
    simp only [extract_json_content]
    by_cases hc : '\x7b' ∈ content
    · have hl : loads (braceSlice content) = none := by
        rcases h with h | h
        · exact absurd hc h
        · exact h
      split_ifs with hcond
      · rw [hl]
      · rfl
    · have hf : pyFind '\x7b' content = -1 := by
        rw [pyFind, List.findIdx?_eq_none_iff.mpr ?_]
        intro x hx2
        exact beq_eq_false_iff_ne.mpr (fun heq => hc (heq ▸ hx2))
      split_ifs with hcond
      · exact absurd hf hcond.1
      · rfl
  show Except.ok (extract_json_content content) = Except.ok fallbackJson
  rw [hx]

/-- Witness for C1 at a brace-free completion text. -/
theorem c1_witness :
    ('\x7b' ∉ "I see a plate of noodles".data ∨
      loads (braceSlice "I see a plate of noodles".data) = none) ∧
    classify_with_openai (.ok "I see a plate of noodles".data) = .ok fallbackJson :=
  ⟨Or.inl (by decide), c1_classifier_fallback _ (Or.inl (by decide))⟩

/-- C2: round trip of the PendingMealToken.  For every food classification
result, the `eat_`-prefixed payload built by `create_flex_nutrition_message`
(whose confirm-eat button carries `"eat_" ++ json.dumps` of the n/p/c/f/s/k
token) starts with `eat_`, and decoding it as the postback handler does
(`json.loads` of the payload after the four-character prefix) reproduces
exactly the name, protein, carbohydrate, fat, sodium and calories values
used to build it. -/
theorem c2_token_roundtrip (food : List (List Char × Json)) :
    confirmEatData (create_flex_nutrition_message food)
        = some (.str ("eat_".data ++ dumpsVal (buildToken food))) ∧
    "eat_".data.isPrefixOf ("eat_".data ++ dumpsVal (buildToken food)) = true ∧
    ∃ ms, loads (("eat_".data ++ dumpsVal (buildToken food)).drop 4) = some (.obj ms) ∧
      jgetD ms "n".data (.str []) = jgetD food "name".data (.str []) ∧
      jgetD ms "p".data (.num 0) = jgetD food "protein".data (.num 0) ∧
      jgetD ms "c".data (.num 0) = jgetD food "carbohydrate".data (.num 0) ∧
      jgetD ms "f".data (.num 0) = jgetD food "fat".data (.num 0) ∧
      jgetD ms "s".data (.num 0) = jgetD food "sodium".data (.num 0) ∧
      jgetD ms "k".data (.num 0) = jgetD food "calories".data (.num 0) := by
  refine ⟨rfl, ?_, ?_⟩
  · rw [List.isPrefixOf_iff_prefix]
    exact List.prefix_append _ _
  · refine ⟨[(['n'], jgetD food "name".data (.str [])),
      (['p'], jgetD food "protein".data (.num 0)),
      (['c'], jgetD food "carbohydrate".data (.num 0)),
      (['f'], jgetD food "fat".data (.num 0)),
      (['s'], jgetD food "sodium".data (.num 0)),
      (['k'], jgetD food "calories".data (.num 0))], ?_, rfl, rfl, rfl, rfl, rfl, rfl⟩
    rw [show (4 : Nat) = "eat_".data.length from rfl, List.drop_left]
    exact loads_dumps (buildToken food)

/-- C6: for every food classification payload, the formatted food reply
contains exactly five nutrition rows, in the order calories, protein,
fat, carbohydrate, sodium, each rendered as `"value unit"` with the fixed
per-field unit (kilocalories, grams, grams, grams, milligrams); a row
whose field is missing from the payload shows the placeholder `N/A`. -/
theorem c6_nutrition_rows (food : List (List Char × Json)) :
    nutritionRowTexts (create_flex_nutrition_message food) = some [
      .str (pyStr (jgetD food "calories".data (.str "N/A".data)) ++ " กิโลแคลอรี่".data),
      .str (pyStr (jgetD food "protein".data (.str "N/A".data)) ++ " กรัม".data),
      .str (pyStr (jgetD food "fat".data (.str "N/A".data)) ++ " กรัม".data),
      .str (pyStr (jgetD food "carbohydrate".data (.str "N/A".data)) ++ " กรัม".data),
      .str (pyStr (jgetD food "sodium".data (.str "N/A".data)) ++ " มิลลิกรัม".data)] := rfl

/-- C10: when the calories field is absent from a food classification
payload, the displayed calories row shows `"N/A กิโลแคลอรี่"`, while the
PendingMealToken embedded in the same reply's confirm-eat payload carries
`0` for that field; a meal confirmed from that reply is therefore stored
with calories `0` where the user was shown `N/A`. -/
theorem c10_missing_field_discrepancy (food : List (List Char × Json)) (db : DB)
    (user : List Char) (hmiss : jget food "calories".data = none) :
    (∃ rows, nutritionRowTexts (create_flex_nutrition_message food) = some rows ∧
      rows[0]? = some (.str ("N/A กิโลแคลอรี่".data))) ∧
    jfield (buildToken food) ['k'] = some (.num 0) ∧
    (∃ rec, (handle_postback none db user
        ("eat_".data ++ dumpsVal (buildToken food))).1.recs = db.recs ++ [rec] ∧
      rec.calories = .num 0) := by
  have hcal : jgetD food "calories".data (.str "N/A".data) = .str "N/A".data := by
    rw [jgetD, hmiss]
    rfl
  have hcal0 : jgetD food "calories".data (.num 0) = .num 0 := by
    rw [jgetD, hmiss]
    rfl
  refine ⟨⟨[
      .str (pyStr (jgetD food "calories".data (.str "N/A".data)) ++ " กิโลแคลอรี่".data),
      .str (pyStr (jgetD food "protein".data (.str "N/A".data)) ++ " กรัม".data),
      .str (pyStr (jgetD food "fat".data (.str "N/A".data)) ++ " กรัม".data),
      .str (pyStr (jgetD food "carbohydrate".data (.str "N/A".data)) ++ " กรัม".data),
      .str (pyStr (jgetD food "sodium".data (.str "N/A".data)) ++ " มิลลิกรัม".data)],
      rfl, ?_⟩, ?_, ?_⟩
  · rw [List.getElem?_cons_zero, hcal]
    rfl
  · show some (jgetD food "calories".data (.num 0)) = some (.num 0)
    rw [hcal0]
  · have hpre : "eat_".data.isPrefixOf ("eat_".data ++ dumpsVal (buildToken food)) = true := by
      rw [List.isPrefixOf_iff_prefix]
      exact List.prefix_append _ _
    have hdrop : ("eat_".data ++ dumpsVal (buildToken food)).drop 4
        = dumpsVal (buildToken food) := by
      rw [show (4 : Nat) = "eat_".data.length from rfl, List.drop_left]
    refine ⟨tokenRecord
        [(['n'], jgetD food "name".data (.str [])),
         (['p'], jgetD food "protein".data (.num 0)),
         (['c'], jgetD food "carbohydrate".data (.num 0)),
         (['f'], jgetD food "fat".data (.num 0)),
         (['s'], jgetD food "sodium".data (.num 0)),
         (['k'], jgetD food "calories".data (.num 0))] user db.nextId db.clock, ?_, ?_⟩
    · rw [handle_postback, if_pos hpre, postbackEatBody, hdrop, loads_dumps, buildToken]
      rfl
    · show jgetD food "calories".data (.num 0) = .num 0
      exact hcal0

/-- The store after appending one inserted row. -/
def insertedDB (db : DB) (rec : MealRecord) : DB :=
  { recs := db.recs ++ [rec], nextId := db.nextId + 1, clock := db.clock + 1 }

/-- C3: a confirm-eat postback carrying a well-formed PendingMealToken
inserts exactly one new `MealRecord` for the event's user whose fields
equal the token's n/p/c/f/s/k values, so that `listRecent(user, 1)` on the
resulting store returns that record, and then pushes the location prompt
to the user. -/
theorem c3_confirm_eat (db : DB) (user data : List Char)
    (kvs : List (List Char × Json)) (hwf : db.wf = true)
    (hpre : "eat_".data.isPrefixOf data = true)
    (htok : loads (data.drop 4) = some (.obj kvs)) :
    handle_postback none db user data
      = (insertedDB db (tokenRecord kvs user db.nextId db.clock),
         [.reply saveSuccessText, .push user locationPromptText]) ∧
    (tokenRecord kvs user db.nextId db.clock).user_id = user ∧
    (tokenRecord kvs user db.nextId db.clock).food_name = jgetD kvs "n".data (.str []) ∧
    (tokenRecord kvs user db.nextId db.clock).protein = jgetD kvs "p".data (.num 0) ∧
    (tokenRecord kvs user db.nextId db.clock).carbohydrate = jgetD kvs "c".data (.num 0) ∧
    (tokenRecord kvs user db.nextId db.clock).fat = jgetD kvs "f".data (.num 0) ∧
    (tokenRecord kvs user db.nextId db.clock).sodium = jgetD kvs "s".data (.num 0) ∧
    (tokenRecord kvs user db.nextId db.clock).calories = jgetD kvs "k".data (.num 0) ∧
    listRecent (insertedDB db (tokenRecord kvs user db.nextId db.clock)) user 1
      = [tokenRecord kvs user db.nextId db.clock] := by
  refine ⟨?_, rfl, rfl, rfl, rfl, rfl, rfl, rfl, ?_⟩
  · rw [handle_postback, if_pos hpre, postbackEatBody, htok]
    rfl
  · rw [DB.wf, Bool.and_eq_true] at hwf
    have hall := List.all_eq_true.mp hwf.2
    have hrecLt : ∀ a ∈ userRecs db user, a.created_at
        < (tokenRecord kvs user db.nextId db.clock).created_at := by
      intro a ha
      have := hall a (List.mem_of_mem_filter ha)
      simp only [Bool.and_eq_true, decide_eq_true_eq] at this
      exact this.1
    have huser : userRecs (insertedDB db (tokenRecord kvs user db.nextId db.clock)) user
        = userRecs db user ++ [tokenRecord kvs user db.nextId db.clock] := by
      rw [userRecs, userRecs]
      show List.filter _ (db.recs ++ [_]) = _
      rw [List.filter_append]
      simp [tokenRecord]
    have hpair : (userRecs db user
        ++ [tokenRecord kvs user db.nextId db.clock]).Pairwise
          (fun a b => a.created_at < b.created_at) := by
      rw [List.pairwise_append]
      refine ⟨(chronological_pairwise hwf.1).filter _, by simp, ?_⟩
      intro a ha b hb
      rw [List.mem_singleton.mp hb]
      exact hrecLt a ha
    rw [listRecent, huser, orderByCreatedDesc_of_increasing hpair, List.reverse_append]
    simp

/-! ### Concrete fixtures for witnesses and counterexamples -/

/-- An empty store. -/
def dbEmpty : DB := { recs := [], nextId := 0, clock := 0 }

/-- The Pad Thai token of the spec scenario. -/
def padThaiKvs : List (List Char × Json) :=
  [(['n'], .str "Pad Thai".data), (['p'], .num 20), (['c'], .num 60),
   (['f'], .num 25), (['s'], .num 1200), (['k'], .num 550)]

/-- The confirm-eat postback payload of the Pad Thai token. -/
def padThaiData : List Char := "eat_".data ++ dumpsVal (.obj padThaiKvs)

/-- A store holding one record of user `u1`. -/
def rec1 : MealRecord :=
  { id := 0, user_id := "u1".data, food_name := .str "ข้าว".data,
    protein := .num 1, carbohydrate := .num 2, fat := .num 3,
    sodium := .num 4, calories := .num 5, materials := [], details := [],
    latitude := none, longitude := none, location_name := none, created_at := 0 }

def dbOneRec : DB := { recs := [rec1], nextId := 1, clock := 1 }

/-- Witness for C3: the Pad Thai token confirmed against an empty store;
the stored record carries food name `Pad Thai` and calories `550` and is
what `listRecent(user, 1)` returns. -/
theorem c3_witness :
    dbEmpty.wf = true ∧
    "eat_".data.isPrefixOf padThaiData = true ∧
    loads (padThaiData.drop 4) = some (.obj padThaiKvs) ∧
    (handle_postback none dbEmpty "u1".data padThaiData
        = (insertedDB dbEmpty (tokenRecord padThaiKvs "u1".data dbEmpty.nextId dbEmpty.clock),
           [.reply saveSuccessText, .push "u1".data locationPromptText]) ∧
      (tokenRecord padThaiKvs "u1".data dbEmpty.nextId dbEmpty.clock).user_id = "u1".data ∧
      (tokenRecord padThaiKvs "u1".data dbEmpty.nextId dbEmpty.clock).food_name
        = jgetD padThaiKvs "n".data (.str []) ∧
      (tokenRecord padThaiKvs "u1".data dbEmpty.nextId dbEmpty.clock).protein
        = jgetD padThaiKvs "p".data (.num 0) ∧
      (tokenRecord padThaiKvs "u1".data dbEmpty.nextId dbEmpty.clock).carbohydrate
        = jgetD padThaiKvs "c".data (.num 0) ∧
      (tokenRecord padThaiKvs "u1".data dbEmpty.nextId dbEmpty.clock).fat
        = jgetD padThaiKvs "f".data (.num 0) ∧
      (tokenRecord padThaiKvs "u1".data dbEmpty.nextId dbEmpty.clock).sodium
        = jgetD padThaiKvs "s".data (.num 0) ∧
      (tokenRecord padThaiKvs "u1".data dbEmpty.nextId dbEmpty.clock).calories
        = jgetD padThaiKvs "k".data (.num 0) ∧
      listRecent (insertedDB dbEmpty
          (tokenRecord padThaiKvs "u1".data dbEmpty.nextId dbEmpty.clock)) "u1".data 1
        = [tokenRecord padThaiKvs "u1".data dbEmpty.nextId dbEmpty.clock]) :=
  ⟨rfl, rfl, rfl, c3_confirm_eat dbEmpty "u1".data padThaiData padThaiKvs rfl rfl rfl⟩

/-- Witness for C10: a payload with no calories field. -/
def foodNoCal : List (List Char × Json) :=
  [("name".data, .str "ข้าวผัด".data), ("protein".data, .num 12)]

theorem c10_witness :
    jget foodNoCal "calories".data = none ∧
    ((∃ rows, nutritionRowTexts (create_flex_nutrition_message foodNoCal) = some rows ∧
        rows[0]? = some (.str ("N/A กิโลแคลอรี่".data))) ∧
      jfield (buildToken foodNoCal) ['k'] = some (.num 0) ∧
      (∃ rec, (handle_postback none dbEmpty "u1".data
          ("eat_".data ++ dumpsVal (buildToken foodNoCal))).1.recs
            = dbEmpty.recs ++ [rec] ∧
        rec.calories = .num 0)) :=
  ⟨rfl, c10_missing_field_discrepancy foodNoCal dbEmpty "u1".data rfl⟩

/-- C9: a plain text message whose stripped text starts with `eat_` (as
opposed to an `eat_` postback event) inserts no `MealRecord` and modifies
no database state; the reply is the fixed save-success text exactly when
the user already has at least one stored record, and the no-data text
otherwise. -/
theorem c9_eat_text_frame (expertResp : Except PyErr (List Char)) (db : DB)
    (user text : List Char)
    (hpre : "eat_".data.isPrefixOf (pyStrip text) = true) :
    handle_text_message ⟨expertResp, none⟩ db user text
      = .ok (db, [.reply (if (userRecs db user).isEmpty then noMealDataText
          else saveSuccessText)]) := by
  have hpre2 : ['e', 'a', 't', '_'] <+: pyStrip text :=
    List.isPrefixOf_iff_prefix.mp hpre
  cases hmr : mostRecentRec db user with
  | none =>
    have hempty : (userRecs db user).isEmpty = true :=
      List.isEmpty_iff.mpr ((mostRecentRec_none_iff db user).mp hmr)
    simp [handle_text_message, hpre2, hmr, hempty]
  | some r =>
    have hempty : (userRecs db user).isEmpty = false := by
      rw [Bool.eq_false_iff]
      intro hContr
      rw [(mostRecentRec_none_iff db user).mpr (List.isEmpty_iff.mp hContr)] at hmr
      exact Option.noConfusion hmr
    simp [handle_text_message, hpre2, hmr, hempty]

/-- Witness for C9: a stripped `eat_` text against a store holding one
record for the user. -/
theorem c9_witness :
    "eat_".data.isPrefixOf (pyStrip "  eat_record ".data) = true ∧
    handle_text_message ⟨.ok [], none⟩ dbOneRec "u1".data "  eat_record ".data
      = .ok (dbOneRec, [.reply (if (userRecs dbOneRec "u1".data).isEmpty
          then noMealDataText else saveSuccessText)]) :=
  ⟨rfl, c9_eat_text_frame (.ok []) dbOneRec "u1".data "  eat_record ".data rfl⟩

/-- C8: the history query behind `listRecent(user, 5)` returns at most
five of the user's records, strictly ordered newest first by creation
time, for any number of stored records including zero. -/
theorem c8_list_recent_sorted (db : DB) (user : List Char) (h : db.wf = true) :
    (listRecent db user 5).length ≤ 5 ∧
    (listRecent db user 5).Pairwise (fun a b => b.created_at < a.created_at) :=
  listRecent_desc h user 5

/-- Witness for C8 on a one-record store. -/
theorem c8_witness :
    dbOneRec.wf = true ∧
    ((listRecent dbOneRec "u1".data 5).length ≤ 5 ∧
      (listRecent dbOneRec "u1".data 5).Pairwise
        (fun a b => b.created_at < a.created_at)) :=
  ⟨rfl, c8_list_recent_sorted dbOneRec "u1".data rfl⟩

/-! ### Update lemmas for the location handler (C7) -/

theorem insertByCreatedDesc_map (g : MealRecord → MealRecord)
    (hg : ∀ m, (g m).created_at = m.created_at) (r : MealRecord) :
    ∀ xs, insertByCreatedDesc (g r) (xs.map g) = (insertByCreatedDesc r xs).map g := by
  intro xs
  induction xs with
  | nil => rfl
  | cons x xs ih =>
    simp only [List.map_cons, insertByCreatedDesc, hg]
    split_ifs
    · simp
    · simp [ih]

theorem orderByCreatedDesc_map (g : MealRecord → MealRecord)
    (hg : ∀ m, (g m).created_at = m.created_at) :
    ∀ rs, orderByCreatedDesc (rs.map g) = (orderByCreatedDesc rs).map g := by
  intro rs
  induction rs with
  | nil => rfl
  | cons r rs ih =>
    simp only [List.map_cons, orderByCreatedDesc, ih, insertByCreatedDesc_map g hg]

theorem filter_user_update (f : MealRecord → MealRecord) (rid : Nat)
    (user : List Char) (hf : ∀ m, (f m).user_id = m.user_id) :
    ∀ rs : List MealRecord,
      (rs.map (fun r => if r.id == rid then f r else r)).filter
          (fun r => r.user_id == user)
        = (rs.filter (fun r => r.user_id == user)).map
            (fun r => if r.id == rid then f r else r) := by
  intro rs
  induction rs with
  | nil => rfl
  | cons r rs ih =>
    simp only [List.map_cons, List.filter_cons]
    have huser : (if r.id == rid then f r else r).user_id = r.user_id := by
      split_ifs <;> simp [hf]
    rw [huser]
    by_cases h : (r.user_id == user) = true
    · rw [if_pos h, if_pos h, List.map_cons, ih]
    · rw [if_neg h, if_neg h, ih]

/-- `userRecs` commutes with `updateRecord` when the update keeps the
`user_id` column. -/
theorem userRecs_updateRecord (db : DB) (rid : Nat) (f : MealRecord → MealRecord)
    (user : List Char) (hf : ∀ m, (f m).user_id = m.user_id) :
    userRecs (db.updateRecord rid f) user
      = (userRecs db user).map (fun r => if r.id == rid then f r else r) := by
  simp only [userRecs, DB.updateRecord]
  exact filter_user_update f rid user hf db.recs

/-- `mostRecentRec` commutes with `updateRecord` when the update keeps
the `user_id` and `created_at` columns. -/
theorem mostRecentRec_updateRecord (db : DB) (rid : Nat)
    (f : MealRecord → MealRecord) (user : List Char)
    (hfu : ∀ m, (f m).user_id = m.user_id)
    (hft : ∀ m, (f m).created_at = m.created_at) :
    mostRecentRec (db.updateRecord rid f) user
      = (mostRecentRec db user).map (fun r => if r.id == rid then f r else r) := by
  have hg : ∀ m, ((fun r => if r.id == rid then f r else r) m).created_at
      = m.created_at := by
    intro m
    by_cases h : m.id == rid <;> simp [h, hft]
  rw [mostRecentRec, mostRecentRec, userRecs_updateRecord db rid f user hfu,
    orderByCreatedDesc_map _ hg, List.head?_map]

theorem updateRecord_length (db : DB) (rid : Nat) (f : MealRecord → MealRecord) :
    (db.updateRecord rid f).recs.length = db.recs.length := by
  simp [DB.updateRecord]

/-- C7: last-write-wins idempotence of the location update.  For a user
with at least one stored record, running `handle_location_message` twice
with different coordinates replies with the saved text both times, leaves
the user's most recent record holding exactly the second call's latitude,
longitude and location name, and creates no record in either call. -/
theorem c7_update_location_idem (db : DB) (user : List Char)
    (lat1 lon1 lat2 lon2 : ℚ) (addr1 addr2 : Option (List Char))
    (hex : (userRecs db user).isEmpty = false)
    (hdiff : (lat1, lon1) ≠ (lat2, lon2)) :
    ∃ r0, mostRecentRec db user = some r0 ∧
      (handle_location_message none db user lat1 lon1 addr1).2
        = [.reply locationSavedText] ∧
      (handle_location_message none
          (handle_location_message none db user lat1 lon1 addr1).1
          user lat2 lon2 addr2).2
        = [.reply locationSavedText] ∧
      mostRecentRec (handle_location_message none
          (handle_location_message none db user lat1 lon1 addr1).1
          user lat2 lon2 addr2).1 user
        = some (locUpdate lat2 lon2 addr2 r0) ∧
      ((handle_location_message none db user lat1 lon1 addr1).1).recs.length
        = db.recs.length ∧
      ((handle_location_message none
          (handle_location_message none db user lat1 lon1 addr1).1
          user lat2 lon2 addr2).1).recs.length
        = db.recs.length := by
  obtain ⟨r0, hr0⟩ : ∃ r0, mostRecentRec db user = some r0 := by
    rcases h : mostRecentRec db user with _ | r0
    · rw [mostRecentRec_none_iff] at h
      rw [h] at hex
      simp at hex
    · exact ⟨r0, rfl⟩
  have hstep1 : handle_location_message none db user lat1 lon1 addr1
      = (db.updateRecord r0.id (locUpdate lat1 lon1 addr1),
         [.reply locationSavedText]) := by
    rw [handle_location_message, locationTurnBody, hr0]
  have hmr1 : mostRecentRec (db.updateRecord r0.id (locUpdate lat1 lon1 addr1)) user
      = some (locUpdate lat1 lon1 addr1 r0) := by
    rw [mostRecentRec_updateRecord db r0.id (locUpdate lat1 lon1 addr1) user
      (fun m => rfl) (fun m => rfl), hr0]
    simp
  have hstep2 : handle_location_message none
        (db.updateRecord r0.id (locUpdate lat1 lon1 addr1)) user lat2 lon2 addr2
      = ((db.updateRecord r0.id (locUpdate lat1 lon1 addr1)).updateRecord
           (locUpdate lat1 lon1 addr1 r0).id (locUpdate lat2 lon2 addr2),
         [.reply locationSavedText]) := by
    rw [handle_location_message, locationTurnBody, hmr1]
  have hmr2 : mostRecentRec
        ((db.updateRecord r0.id (locUpdate lat1 lon1 addr1)).updateRecord
           r0.id (locUpdate lat2 lon2 addr2)) user
      = some (locUpdate lat2 lon2 addr2 (locUpdate lat1 lon1 addr1 r0)) := by
    rw [mostRecentRec_updateRecord _ r0.id (locUpdate lat2 lon2 addr2) user
      (fun m => rfl) (fun m => rfl), hmr1]
    simp [locUpdate]
  refine ⟨r0, hr0, ?_, ?_, ?_, ?_, ?_⟩
  · rw [hstep1]
  · simp only [hstep1]
    exact congrArg Prod.snd hstep2
  · simp only [hstep1]
    rw [hstep2]
    exact hmr2
  · simp only [hstep1]
    exact updateRecord_length db r0.id _
  · simp only [hstep1, hstep2, updateRecord_length]

/-- Witness for C7: one record, updated with (1, 2, Home) then
(3, 4, Office); the record ends holding the second set. -/
theorem c7_witness :
    (userRecs dbOneRec "u1".data).isEmpty = false ∧
    ((1 : ℚ), (2 : ℚ)) ≠ ((3 : ℚ), (4 : ℚ)) ∧
    (∃ r0, mostRecentRec dbOneRec "u1".data = some r0 ∧
      (handle_location_message none dbOneRec "u1".data 1 2 (some "Home".data)).2
        = [.reply locationSavedText] ∧
      (handle_location_message none
          (handle_location_message none dbOneRec "u1".data 1 2 (some "Home".data)).1
          "u1".data 3 4 (some "Office".data)).2
        = [.reply locationSavedText] ∧
      mostRecentRec (handle_location_message none
          (handle_location_message none dbOneRec "u1".data 1 2 (some "Home".data)).1
          "u1".data 3 4 (some "Office".data)).1 "u1".data
        = some (locUpdate 3 4 (some "Office".data) r0) ∧
      ((handle_location_message none dbOneRec "u1".data 1 2 (some "Home".data)).1).recs.length
        = dbOneRec.recs.length ∧
      ((handle_location_message none
          (handle_location_message none dbOneRec "u1".data 1 2 (some "Home".data)).1
          "u1".data 3 4 (some "Office".data)).1).recs.length
        = dbOneRec.recs.length) :=
  ⟨rfl, by decide,
    c7_update_location_idem dbOneRec "u1".data 1 2 3 4 (some "Home".data)
      (some "Office".data) rfl (by decide)⟩

/-! ### C5: the history location line -/

/-- A record whose latitude is present but `0.0` (falsy in Python) and
whose longitude is present and nonzero. -/
def recZeroLat : MealRecord :=
  { rec1 with latitude := some 0, longitude := some (201/2) }

/-- Every `.4f` rendering contains a decimal point. -/
theorem dot_mem_fmt4 (q : ℚ) : '.' ∈ fmt4 q := by
  simp [fmt4]

/-- Counterexample for C5 as stated: a record with latitude and longitude
both present (and no location name) whose history line is the fixed
placeholder, not the 4-decimal coordinate rendering, because latitude
`0.0` is falsy under the `elif record.latitude and record.longitude:`
test of the source. -/
theorem c5_counterexample :
    recZeroLat.latitude.isSome = true ∧
    recZeroLat.longitude.isSome = true ∧
    recZeroLat.location_name = none ∧
    historyLocationText recZeroLat = noLocationText ∧
    historyLocationText recZeroLat
      ≠ "📍 ".data ++ fmt4 (recZeroLat.latitude.getD 0) ++ ", ".data
          ++ fmt4 (recZeroLat.longitude.getD 0) := by
  refine ⟨rfl, rfl, rfl, rfl, ?_⟩
  intro hEq
  have hdot : '.' ∈ noLocationText := by
    have h0 : historyLocationText recZeroLat = noLocationText := rfl
    rw [← h0, hEq]
    simp [dot_mem_fmt4]
  revert hdot
  decide

/-- C5 (amended): the location line of a history card shows the stored
name when the name is truthy (present and non-empty); otherwise the
coordinates to four decimal places when latitude and longitude are both
truthy (present and nonzero); otherwise the fixed placeholder. -/
theorem c5_location_line (r : MealRecord) :
    (pyTruthyStrOpt r.location_name = true →
      historyLocationText r = "📍 ".data ++ r.location_name.getD []) ∧
    (pyTruthyStrOpt r.location_name = false →
      (pyTruthyRatOpt r.latitude && pyTruthyRatOpt r.longitude) = true →
      historyLocationText r
        = "📍 ".data ++ fmt4 (r.latitude.getD 0) ++ ", ".data
            ++ fmt4 (r.longitude.getD 0)) ∧
    (pyTruthyStrOpt r.location_name = false →
      (pyTruthyRatOpt r.latitude && pyTruthyRatOpt r.longitude) = false →
      historyLocationText r = noLocationText) := by
  refine ⟨fun h1 => ?_, fun h1 h2 => ?_, fun h1 h2 => ?_⟩
  · simp [historyLocationText, h1]
  · simp [historyLocationText, h1, h2]
  · simp [historyLocationText, h1, h2]

/-- A record with a stored location name. -/
def recHome : MealRecord := { rec1 with location_name := some "Home".data }

/-- Witness for C5 (amended), first clause: a truthy name is shown. -/
theorem c5_witness :
    pyTruthyStrOpt recHome.location_name = true ∧
    historyLocationText recHome = "📍 ".data ++ recHome.location_name.getD [] :=
  ⟨rfl, (c5_location_line recHome).1 rfl⟩

/-! ### C4: the turn boundary -/

/-- Counterexample for C4 as stated: `handle_text_message` installs no
try/except, so an exception raised by `respond_as_health_expert` inside a
text turn propagates out of the handler instead of becoming an apology
reply. -/
theorem c4_counterexample :
    handle_text_message ⟨.error (.err "boom".data), none⟩ dbEmpty "u".data
        "hello".data
      = .error (.err "boom".data) := rfl

/-- C4 (amended): the image, postback and location handlers catch every
exception of their turn bodies at the turn boundary and reply with a
fixed plain-text apology, leaving the store unchanged; the text handler
installs no such boundary. -/
theorem c4_turn_boundary (db : DB) (user : List Char) :
    (∀ env : ImgEnv, ∀ m, imageTurnBody env db = .error (.err m) →
      handle_image_message env db = (db, [.reply (imageFailPrefixText ++ m)])) ∧
    (∀ dbFail data e, "eat_".data.isPrefixOf data = true →
      postbackEatBody dbFail db user data = .error e →
      handle_postback dbFail db user data = (db, [.reply saveFailText])) ∧
    (∀ dbFail data e, "eat_".data.isPrefixOf data = false →
      "location_".data.isPrefixOf data = true →
      locationReqBody data = .error e →
      handle_postback dbFail db user data = (db, [.reply locationReqFailText])) ∧
    (∀ dbFail lat lon addr e,
      locationTurnBody dbFail db user lat lon addr = .error e →
      handle_location_message dbFail db user lat lon addr
        = (db, [.reply locationSaveFailText])) := by
  refine ⟨?_, ?_, ?_, ?_⟩
  · intro env m h
    rw [handle_image_message, h]
  · intro dbFail data e hpre h
    simp [handle_postback, hpre, h]
  · intro dbFail data e hpre1 hpre2 h
    simp [handle_postback, hpre1, hpre2, h]
  · intro dbFail lat lon addr e h
    rw [handle_location_message, h]

/-- Witness for C4 (amended): concrete failing turns of all three guarded
handlers produce the fixed apologies. -/
theorem c4_witness :
    imageTurnBody ⟨.error (.err "net".data), .ok []⟩ dbEmpty
      = .error (.err "net".data) ∧
    handle_image_message ⟨.error (.err "net".data), .ok []⟩ dbEmpty
      = (dbEmpty, [.reply (imageFailPrefixText ++ "net".data)]) ∧
    postbackEatBody none dbEmpty "u1".data "eat_oops".data
      = .error (.err "JSONDecodeError".data) ∧
    handle_postback none dbEmpty "u1".data "eat_oops".data
      = (dbEmpty, [.reply saveFailText]) ∧
    locationReqBody "location_x".data = .error (.err "ValueError".data) ∧
    handle_postback none dbEmpty "u1".data "location_x".data
      = (dbEmpty, [.reply locationReqFailText]) ∧
    locationTurnBody (some (.err "db down".data)) dbEmpty "u1".data 1 2 none
      = .error (.err "db down".data) ∧
    handle_location_message (some (.err "db down".data)) dbEmpty "u1".data 1 2 none
      = (dbEmpty, [.reply locationSaveFailText]) :=
  ⟨rfl,
   (c4_turn_boundary dbEmpty "u1".data).1 ⟨.error (.err "net".data), .ok []⟩
     "net".data rfl,
   rfl,
   (c4_turn_boundary dbEmpty "u1".data).2.1 none "eat_oops".data
     (.err "JSONDecodeError".data) rfl rfl,
   rfl,
   (c4_turn_boundary dbEmpty "u1".data).2.2.1 none "location_x".data
     (.err "ValueError".data) rfl rfl rfl,
   rfl,
   (c4_turn_boundary dbEmpty "u1".data).2.2.2 (some (.err "db down".data)) 1 2 none
     (.err "db down".data) rfl⟩

end CountCrab
